import Mathlib

/-!
Verification development for the ARTIQ IR lowering pass
(`artiq/compiler/transforms/ir_generator.py`).

The Python visitor `IRGenerator` is shallowly embedded as explicit
state-passing functions over a `GenState` record that mirrors its
instance variables (`current_block`, `break_target`, ...).  Instructions
live in a global arena (index = SSA id); each basic block also owns the
list of instructions linked into it, kept in lockstep with the arena so
that structural facts about blocks are local.  The IR data classes
(`ir.Function`, `ir.BasicBlock`, `ir.Phi.add_incoming`, ...) are not part
of the given sources, so their behaviour is modelled from the spec
(section 3 of spec.md); every visitor of `ir_generator.py` itself is
transcribed line by line from the source, bugs included.
-/

namespace ArtiqGen

/-- Coarse value types: just enough structure for the dispatches the
generator performs (`builtins.is_none`, `is_list`, `is_range`,
`is_numeric`). -/
inductive Ty where
  | noneT
  | int32
  | boolT
  | floatT
  | listT
  | rangeT
  | envT
  | optionT
  | funcT
  | blockT
  | exnIndexError
  | exnValueError
  | otherT (name : String)
deriving DecidableEq, Repr, Inhabited

def Ty.isList : Ty → Bool
  | .listT => true
  | _ => false

def Ty.isRange : Ty → Bool
  | .rangeT => true
  | _ => false

def Ty.isInt : Ty → Bool
  | .int32 => true
  | _ => false

def Ty.isNumeric : Ty → Bool
  | .int32 => true
  | .floatT => true
  | _ => false

def Ty.name : Ty → String
  | .exnIndexError => "IndexError"
  | .exnValueError => "ValueError"
  | .otherT s => s
  | _ => "ty"

/-- Immediate constants (`ir.Constant`).  `nil` is Python `None`. -/
inductive Const where
  | int (n : Int)
  | bool (b : Bool)
  | nil
deriving DecidableEq, Repr

/-- What a `Value` refers to: a constant, an instruction result (by arena
id), a formal argument (`ir.Argument` / `ir.EnvironmentArgument`), or a
basic block used as a first-class value (stored into the `.k` slot). -/
inductive VKind where
  | const (c : Const)
  | insn (id : Nat)
  | argRef (name : String)
  | blockRef (id : Nat)
deriving DecidableEq, Repr

structure Value where
  kind : VKind
  ty : Ty
deriving DecidableEq, Repr

def intV (n : Int) (ty : Ty) : Value := ⟨.const (.int n), ty⟩
def boolV (b : Bool) : Value := ⟨.const (.bool b), .boolT⟩
def noneV : Value := ⟨.const .nil, .noneT⟩
def blockV (bid : Nat) : Value := ⟨.blockRef bid, .blockT⟩
def dummyV : Value := noneV

/-- Binary operators appearing in emitted `ir.BinaryOp` instructions. -/
inductive BinOp where
  | add
  | sub
  | mul
  | floordiv
  | modOp
deriving DecidableEq, Repr

/-- Comparison operators appearing in emitted `ir.Compare` instructions. -/
inductive CmpOp where
  | lt
  | ltE
  | gt
  | gtE
  | eq
  | notEq
deriving DecidableEq, Repr

/-- Instruction variants of the ARTIQ IR, as emitted by the generator. -/
inductive Insn where
  | alloc (operands : List Value) (ty : Ty) (name : String)
  | getLocal (env : Value) (var : String) (ty : Ty)
  | setLocal (env : Value) (var : String) (value : Value)
  | getAttr (obj : Value) (attr : String) (ty : Ty)
  | setAttr (obj : Value) (attr : String) (value : Value)
  | getElem (obj index : Value)
  | setElem (obj index value : Value)
  | binop (op : BinOp) (lhs rhs : Value)
  | unaryop (lhs : Value)
  | compare (op : CmpOp) (lhs rhs : Value)
  | select (cond ifTrue ifFalse : Value)
  | phi (ty : Ty) (incoming : List (Value × Nat))
  | builtin (op : String) (operands : List Value) (ty : Ty)
  | closure (funcId : Nat) (env : Value)
  | coerce (value : Value) (ty : Ty)
  | branch (target : Nat)
  | branchIf (cond : Value) (ifTrue ifFalse : Nat)
  | indirectBranch (dest : Value) (targets : List Nat)
  | ret (value : Value)
  | raiseExn (value : Value)
  | unreachable
  | landingPad (clauses : List (Nat × Ty))
deriving DecidableEq, Repr

/-- Result type of an instruction's value (coarse; element reads from the
integer lists used in the embedded programs are `int32`). -/
def Insn.resultTy : Insn → Ty
  | .alloc _ ty _ => ty
  | .getLocal _ _ ty => ty
  | .getAttr _ _ ty => ty
  | .getElem _ _ => .int32
  | .binop _ _ _ => .int32
  | .unaryop _ => .int32
  | .compare _ _ _ => .boolT
  | .select _ t _ => t.ty
  | .phi ty _ => ty
  | .builtin _ _ ty => ty
  | .closure _ _ => .funcT
  | .coerce _ ty => ty
  | .landingPad _ => .otherT "exn"
  | _ => .noneT

/-- Modelled from the spec: terminators are branch, conditional branch,
indirect branch, return, raise, unreachable (glossary), plus the landing
pad and invoke which both transfer control (section 3). -/
def Insn.isTerminator : Insn → Bool
  | .branch _ => true
  | .branchIf _ _ _ => true
  | .indirectBranch _ _ => true
  | .ret _ => true
  | .raiseExn _ => true
  | .unreachable => true
  | .landingPad _ => true
  | _ => false

/-- Modelled from the spec: the successor blocks a terminator can
transfer control to (glossary entries for branch, indirect branch and
landing pad). -/
def Insn.successors : Insn → List Nat
  | .branch t => [t]
  | .branchIf _ t f => [t, f]
  | .indirectBranch _ ts => ts
  | .landingPad cs => cs.map (fun c => c.1)
  | _ => []

/-- One arena slot: the instruction and, when it is linked into a block,
the block id and the index at which it sits in that block. -/
structure ArenaEntry where
  insn : Insn
  owner : Option (Nat × Nat)
deriving DecidableEq, Repr

/-- Modelled from the spec: a `BasicBlock` owns an ordered sequence of
instructions and a diagnostic name (section 3). -/
structure BasicBlock where
  bname : String
  insns : List Insn
deriving DecidableEq, Repr, Inhabited

/-- Modelled from the spec: a `Function` owns its blocks (here: by id
into the block arena), a name, a return type and the list of formal
arguments, which for non-module functions starts with the synthetic
outer-environment argument (section 3). -/
structure IRFunction where
  fname : String
  formalArgs : List Value
  retTy : Ty
  blockIds : List Nat
deriving DecidableEq, Repr, Inhabited

/-- The mutable state of `IRGenerator`, threaded explicitly.  `invalid`
marks paths the Python code could only reach through an internal
`assert False`; `pyError` records a host-language (Python) error raised
while lowering, such as the `NameError` in `visit_AugAssign`. -/
structure GenState where
  arena : List ArenaEntry
  blocks : List BasicBlock
  funcs : List IRFunction
  curFunc : Nat
  curBlock : Nat
  curEnv : Value
  curPrivEnv : Value
  curAssign : Option Value
  breakTarget : Option Nat
  continueTarget : Option Nat
  returnTarget : Option Nat
  unwindTarget : Option Nat
  globalsInScope : List String
  nameStack : List String
  invalid : Bool
  pyError : Option String
deriving Repr

def getInsn (s : GenState) (id : Nat) : Insn :=
  (s.arena.getD id ⟨.unreachable, none⟩).insn

def getBlock (s : GenState) (bid : Nat) : BasicBlock :=
  s.blocks.getD bid default

def getFunc (s : GenState) (fid : Nat) : IRFunction :=
  s.funcs.getD fid default

/-- Modelled from the spec: a block is terminated when its last
instruction is a terminator (section 3: at most one terminator, always
last). -/
def blockTerminated (s : GenState) (bid : Nat) : Bool :=
  match (getBlock s bid).insns.getLast? with
  | some i => i.isTerminator
  | none => false

/-- Modelled from the spec: appending to an already-terminated block is a
no-op that discards the instruction (section 3); the instruction still
exists as an SSA value (arena entry without an owner).  Mirrors
`BasicBlock.append` as used through `IRGenerator.append`. -/
def appendInsnTo (s : GenState) (bid : Nat) (i : Insn) : Value × GenState :=
  let id := s.arena.length
  if blockTerminated s bid then
    (⟨.insn id, i.resultTy⟩, { s with arena := s.arena ++ [⟨i, none⟩] })
  else
    let b := getBlock s bid
    (⟨.insn id, i.resultTy⟩,
     { s with
        arena := s.arena ++ [⟨i, some (bid, b.insns.length)⟩],
        blocks := s.blocks.set bid { b with insns := b.insns ++ [i] } })

/-- `IRGenerator.append`: append to the current block. -/
def appendInsn (s : GenState) (i : Insn) : Value × GenState :=
  appendInsnTo s s.curBlock i

/-- `IRGenerator.terminate`. -/
def terminate (s : GenState) (i : Insn) : GenState :=
  if blockTerminated s s.curBlock then s else (appendInsn s i).2

/-- `IRGenerator.add_block`: create a block and register it with the
current function. -/
def addBlock (s : GenState) (nm : String) : Nat × GenState :=
  let bid := s.blocks.length
  let f := getFunc s s.curFunc
  (bid,
   { s with
      blocks := s.blocks ++ [⟨nm, []⟩],
      funcs := s.funcs.set s.curFunc { f with blockIds := f.blockIds ++ [bid] } })

/-- Rewrite an instruction in place (both in the arena and, when linked,
inside its block), used for `Phi.add_incoming` and
`LandingPad.add_clause`. -/
def mutateInsn (s : GenState) (id : Nat) (f : Insn → Insn) : GenState :=
  match s.arena.getD id ⟨.unreachable, none⟩ with
  | ⟨i, own⟩ =>
    let s := { s with arena := s.arena.set id ⟨f i, own⟩ }
    match own with
    | some (bid, idx) =>
      let b := getBlock s bid
      { s with blocks := s.blocks.set bid { b with insns := b.insns.set idx (f i) } }
    | none => s

/-- Modelled from the spec: `Phi.add_incoming` records one explicit
(value, predecessor-block) pair (section 3). -/
def addIncoming (s : GenState) (phiVal : Value) (v : Value) (pred : Nat) : GenState :=
  match phiVal.kind with
  | .insn id =>
    mutateInsn s id (fun i =>
      match i with
      | .phi ty inc => .phi ty (inc ++ [(v, pred)])
      | other => other)
  | _ => { s with invalid := true }

/-- Modelled from the spec: `LandingPad.add_clause` appends one
(handler-block, exception-type) clause, in source order (section 4.4). -/
def addClause (s : GenState) (lpVal : Value) (hid : Nat) (hty : Ty) : GenState :=
  match lpVal.kind with
  | .insn id =>
    mutateInsn s id (fun i =>
      match i with
      | .landingPad cs => .landingPad (cs ++ [(hid, hty)])
      | other => other)
  | _ => { s with invalid := true }

/-- Modelled from the spec: the predecessors of a block, within a given
function, are the blocks whose terminator branches into it (glossary;
used by `visit_Try` for the `tail.predecessors()` emptiness test). -/
def blockPredecessorsIn (s : GenState) (fid : Nat) (bid : Nat) : List Nat :=
  (getFunc s fid).blockIds.filter (fun pid =>
    match (getBlock s pid).insns.getLast? with
    | some i => i.successors.contains bid
    | none => false)

/-- Modelled from the spec: `Function.remove` drops a block from the
function (used by `visit_Try` to discard an unreachable tail block). -/
def removeBlockFromFunc (s : GenState) (bid : Nat) : GenState :=
  let f := getFunc s s.curFunc
  { s with funcs := s.funcs.set s.curFunc ({ f with blockIds := f.blockIds.filter (fun b => b ≠ bid) }) }

/-! ### Typed syntax tree

Minimal typed-AST mirror of the `pythonparser` node shapes the claims
exercise.  Nodes carry the types the upstream type checker would have
annotated (`node.type`, `node.slice.type`, ...). -/

/-- Expressions.  `subscriptIndex`/`subscriptSlice` split the
`isinstance(node.slice, ast.Index)` test of `visit_SubscriptT`. -/
inductive Expr where
  | num (n : Int) (ty : Ty)
  | name (id : String) (ty : Ty)
  | binop (op : BinOp) (left right : Expr) (ty : Ty)
  | subscriptIndex (value : Expr) (index : Expr) (ty : Ty)
  | subscriptSlice (value : Expr) (lower upper step : Option Expr) (sliceTy ty : Ty)
deriving Repr

/-- Statements.  A `tryS` handler is (optional bound name, exception
type, handler body). -/
inductive Stmt where
  | passS
  | exprS (e : Expr)
  | assign (target : Expr) (value : Expr)
  | augAssign (target : Expr) (op : BinOp) (value : Expr)
  | ret (value : Option Expr)
  | brk
  | cont
  | raiseS (exc : Expr)
  | tryS (body : List Stmt) (handlers : List (Option String × Ty × List Stmt))
         (orelse : List Stmt) (finalbody : List Stmt)
  | forS (target : Expr) (iter : Expr) (body : List Stmt) (orelse : List Stmt)
deriving Repr

/-- A function definition / lambda node (`visit_function`'s input).
`optargs` zips `typ.optargs` with `node.args.defaults`; `lamBody` is the
body expression used when lowering as a lambda. -/
structure FuncNode where
  fname : String
  args : List (String × Ty)
  optargs : List (String × Ty × Expr)
  retTy : Ty
  bodyStmts : List Stmt
  lamBody : Expr
  globals : List String
deriving Repr

/-! ### Emission helpers (`IRGenerator` private methods) -/

/-- The generator's `_size_type` (32-bit integer). -/
def sizeT : Ty := Ty.int32

/-- `IRGenerator._env_for`. -/
def env_for (s : GenState) (nm : String) : Value × GenState :=
  if s.globalsInScope.contains nm then
    appendInsn s (.builtin "globalenv" [s.curEnv] .envT)
  else
    (s.curEnv, s)

/-- `IRGenerator._get_local`. -/
def get_local (s : GenState) (nm : String) (ty : Ty) : Value × GenState :=
  let (e, s) := env_for s nm
  appendInsn s (.getLocal e nm ty)

/-- `IRGenerator._set_local` (returns no value in Python). -/
def set_local (s : GenState) (nm : String) (v : Value) : GenState :=
  let (e, s) := env_for s nm
  (appendInsn s (.setLocal e nm v)).2

/-- `IRGenerator._iterable_len`: list length via the `len` builtin,
range length as `(stop - start) // step`. -/
def iterable_len (s : GenState) (v : Value) (ty : Ty) : Value × GenState :=
  if v.ty.isList then
    appendInsn s (.builtin "len" [v] ty)
  else if v.ty.isRange then
    let (start, s) := appendInsn s (.getAttr v "start" .int32)
    let (stop, s) := appendInsn s (.getAttr v "stop" .int32)
    let (step, s) := appendInsn s (.getAttr v "step" .int32)
    let (spread, s) := appendInsn s (.binop .sub stop start)
    appendInsn s (.binop .floordiv spread step)
  else
    (dummyV, { s with invalid := true })

/-- `IRGenerator._iterable_get`: list element via `GetElem`, range
element as `start + step * index`. -/
def iterable_get (s : GenState) (v : Value) (index : Value) : Value × GenState :=
  if v.ty.isList then
    appendInsn s (.getElem v index)
  else if v.ty.isRange then
    let (start, s) := appendInsn s (.getAttr v "start" .int32)
    let (step, s) := appendInsn s (.getAttr v "step" .int32)
    let (offset, s) := appendInsn s (.binop .mul step index)
    appendInsn s (.binop .add start offset)
  else
    (dummyV, { s with invalid := true })

/-- `IRGenerator._map_index`: map negative indices to `length + index`,
bounds-check the mapped index, branch to a fresh block that allocates and
raises an `IndexError` when out of bounds, and continue lowering in the
in-bounds block.  Returns the mapped index value. -/
def map_index (s : GenState) (length index : Value) : Value × GenState :=
  let (lt0, s) := appendInsn s (.compare .lt index (intV 0 index.ty))
  let (fromEnd, s) := appendInsn s (.binop .add length index)
  let (mapped, s) := appendInsn s (.select lt0 fromEnd index)
  let (ge0, s) := appendInsn s (.compare .gtE mapped (intV 0 mapped.ty))
  let (ltLen, s) := appendInsn s (.compare .lt mapped length)
  let (inBounds, s) := appendInsn s (.select ge0 ltLen (boolV false))
  let (oobId, s) := addBlock s ""
  let (exn, s) := appendInsnTo s oobId (.alloc [] .exnIndexError "IndexError")
  let (_, s) := appendInsnTo s oobId (.raiseExn exn)
  let (ibId, s) := addBlock s ""
  let (_, s) := appendInsn s (.branchIf inBounds ibId oobId)
  (mapped, { s with curBlock := ibId })

/-- `IRGenerator._make_check`: branch to a fresh raising block when the
condition is false, continue in a fresh tail block when true. -/
def make_check (s : GenState) (cond : Value) (exnGen : GenState → Value × GenState) : GenState :=
  let condBlock := s.curBlock
  let (bodyId, s) := addBlock s ""
  let s := { s with curBlock := bodyId }
  let (exn, s) := exnGen s
  let (_, s) := appendInsn s (.raiseExn exn)
  let (tailId, s) := addBlock s ""
  let s := { s with curBlock := tailId }
  (appendInsnTo s condBlock (.branchIf cond tailId bodyId)).2

/-- `IRGenerator._make_loop`: counting-loop skeleton.  `condGen` and
`bodyGen` receive the loop `Phi`; the back-edge incoming pair is added
for whatever block is current after `bodyGen` ran.  Returns (head, body,
tail) block ids. -/
def make_loop (s : GenState) (init : Value)
    (condGen : GenState → Value → Value × GenState)
    (bodyGen : GenState → Value → Value × GenState) :
    (Nat × Nat × Nat) × GenState :=
  let initBlock := s.curBlock
  let (headId, s) := addBlock s ""
  let (_, s) := appendInsnTo s initBlock (.branch headId)
  let s := { s with curBlock := headId }
  let (phiV, s) := appendInsn s (.phi init.ty [])
  let s := addIncoming s phiV init initBlock
  let (cond, s) := condGen s phiV
  let (bodyId, s) := addBlock s ""
  let s := { s with curBlock := bodyId }
  let (bodyV, s) := bodyGen s phiV
  let (_, s) := appendInsn s (.branch headId)
  let s := addIncoming s phiV bodyV s.curBlock
  let (tailId, s) := addBlock s ""
  let s := { s with curBlock := tailId }
  let (_, s) := appendInsnTo s headId (.branchIf cond bodyId tailId)
  ((headId, bodyId, tailId), s)

/-! ### Expression visitors

`visitExpr` dispatches like `_visit_one`; each arm transcribes the
corresponding `visit_*T` method.  Expression visitors return the node's
value, or `none` where the Python method falls off its end without a
`return` statement.  The non-trivial visitors are top-level functions
parameterized by the recursive visitor `visitE`, and `visitExpr` ties
the knot with a fuel argument (never exhausted by the programs below;
running out of fuel marks the state invalid). -/

/-- `visit_BinOpT` (source lines 827-908).  The numeric case lowers to a
primitive `BinaryOp`; the `list * int` / `int * list` case is transcribed
exactly, including the source's three slips: the inner copy loop stores
at `base_index` (not the computed `result_index`, which stays unused),
the outer loop's next-index value is `lst_length + 1`, and the arm ends
without a `return` statement.  The tuple/list `+` concatenation arm is
outside the claims' scope and is not modelled; nothing in this file
relies on it. -/
def visit_BinOp (visitE : GenState → Expr → Option Value × GenState)
    (s : GenState) (op : BinOp) (l r : Expr) (ty : Ty) : Option Value × GenState :=
  if ty.isNumeric then
    let (lv, s) := visitE s l
    let (rv, s) := visitE s r
    let (v, s) := appendInsn s (.binop op (lv.getD dummyV) (rv.getD dummyV))
    (some v, s)
  else
    (match op with
     | .mul =>
        let (lvO, s) := visitE s l
        let (rvO, s) := visitE s r
        let lv := lvO.getD dummyV
        let rv := rvO.getD dummyV
        if lv.ty.isList && rv.ty.isInt || lv.ty.isInt && rv.ty.isList then
          let lst := if lv.ty.isList then lv else rv
          let num := if lv.ty.isList then rv else lv
          let (lstLength, s) := appendInsn s (.builtin "len" [lst] sizeT)
          let (resultLength, s) := appendInsn s (.binop .mul lstLength num)
          let (result, s) := appendInsn s (.alloc [resultLength] ty "")
          let (_, s) := make_loop s (intV 0 sizeT)
            (fun s idx => appendInsn s (.compare .lt idx num))
            (fun s numIndex =>
              let (_, s) := make_loop s (intV 0 sizeT)
                (fun s idx => appendInsn s (.compare .lt idx lstLength))
                (fun s lstIndex =>
                  let (elt, s) := appendInsn s (.getElem lst lstIndex)
                  let (baseIndex, s) := appendInsn s (.binop .mul numIndex lstLength)
                  -- result_index is computed in the source but never used
                  let (_resultIndex, s) := appendInsn s (.binop .add baseIndex lstIndex)
                  let (_, s) := appendInsn s (.setElem result baseIndex elt)
                  appendInsn s (.binop .add lstIndex (intV 1 sizeT)))
              appendInsn s (.binop .add lstLength (intV 1 sizeT)))
          -- the source's Mult arm ends without a return statement
          (none, s)
        else
          (none, { s with invalid := true })
     | _ =>
        (none, { s with invalid := true }))

/-- `visit_SubscriptT`, `ast.Index` branch (source lines 651-668). -/
def visit_Subscript_index (visitE : GenState → Expr → Option Value × GenState)
    (s : GenState) (value index : Expr) : Option Value × GenState :=
  let oldAssign := s.curAssign
  let s := { s with curAssign := none }
  let (vO, s) := visitE s value
  let s := { s with curAssign := oldAssign }
  let v := vO.getD dummyV
  let (idxO, s) := visitE s index
  let idx := idxO.getD dummyV
  let (length, s) := iterable_len s v idx.ty
  let (mappedIndex, s) := map_index s length idx
  (match s.curAssign with
   | none =>
      let (res, s) := iterable_get s v mappedIndex
      (some res, s)
   | some a =>
      let (_, s) := appendInsn s (.setElem v mappedIndex a)
      (none, s))

/-- `visit_SubscriptT`, slice branch (source lines 669-716): the length
check compares the computed slice size against the length of the sliced
sequence itself, and the copy loop indexes the destination from the
unmapped `min_index`; both the read and the write path end without a
`return` statement. -/
def visit_Subscript_slice (visitE : GenState → Expr → Option Value × GenState)
    (s : GenState) (value : Expr) (lower upper step : Option Expr)
    (sliceTy ty : Ty) : Option Value × GenState :=
  let oldAssign := s.curAssign
  let s := { s with curAssign := none }
  let (vO, s) := visitE s value
  let s := { s with curAssign := oldAssign }
  let v := vO.getD dummyV
  let (length, s) := iterable_len s v sliceTy
  let (minIndex, s) :=
    match lower with
    | some e =>
        let (o, s) := visitE s e
        (o.getD dummyV, s)
    | none => (intV 0 sliceTy, s)
  let (mappedMin, s) := map_index s length minIndex
  let (maxIndex, s) :=
    match upper with
    | some e =>
        let (o, s) := visitE s e
        (o.getD dummyV, s)
    | none => (length, s)
  let (mappedMax, s) := map_index s length maxIndex
  let (stepV, s) :=
    match step with
    | some e =>
        let (o, s) := visitE s e
        (o.getD dummyV, s)
    | none => (intV 1 sliceTy, s)
  let (unsteppedSize, s) := appendInsn s (.binop .sub mappedMax mappedMin)
  let (sliceSize, s) := appendInsn s (.binop .floordiv unsteppedSize stepV)
  let (checkCond, s) := appendInsn s (.compare .eq sliceSize length)
  let s := make_check s checkCond
    (fun s => appendInsn s (.alloc [] .exnValueError "ValueError"))
  let (otherValue, s) :=
    match s.curAssign with
    | none => appendInsn s (.alloc [sliceSize] ty "")
    | some a => (a, s)
  let (_, s) := make_loop s (intV 0 sliceTy)
    (fun s idx => appendInsn s (.compare .lt idx sliceSize))
    (fun s otherIndex =>
      let (offset, s) := appendInsn s (.binop .mul stepV otherIndex)
      let (index, s) := appendInsn s (.binop .add minIndex offset)
      let s :=
        match s.curAssign with
        | none =>
            let (elem, s) := iterable_get s v index
            (appendInsn s (.setElem otherValue otherIndex elem)).2
        | some a =>
            let (elem, s) := appendInsn s (.getElem a otherIndex)
            (appendInsn s (.setElem v index elem)).2
      appendInsn s (.binop .add otherIndex (intV 1 sliceTy)))
  -- the slice branch of the source ends without a return statement
  (none, s)

/-- Expression dispatch (`_visit_one` restricted to expressions). -/
def visitExpr : Nat → GenState → Expr → Option Value × GenState
  | 0, s, _ => (none, { s with invalid := true })
  | fuel + 1, s, e =>
    match e with
    | .num n ty =>
        -- visit_NumT: a bare Constant, nothing is emitted
        (some (intV n ty), s)
    | .name nm ty =>
        -- visit_NameT
        (match s.curAssign with
         | none =>
            let (v, s) := get_local s nm ty
            (some v, s)
         | some a =>
            -- _set_local has no return statement, so this arm yields None
            (none, set_local s nm a))
    | .binop op l r ty => visit_BinOp (visitExpr fuel) s op l r ty
    | .subscriptIndex value index _ty => visit_Subscript_index (visitExpr fuel) s value index
    | .subscriptSlice value lower upper step sliceTy ty =>
        visit_Subscript_slice (visitExpr fuel) s value lower upper step sliceTy ty

/-! ### Statement visitors -/

/-- The list case of `IRGenerator.visit`: lower statements in order,
stopping as soon as the current block is terminated. -/
def runBody (visit1 : GenState → Stmt → GenState) : GenState → List Stmt → GenState
  | s, [] => s
  | s, st :: rest =>
      let s := visit1 s st
      if blockTerminated s s.curBlock then s else runBody visit1 s rest

/-- Local names bound in `visit_AugAssign` before its first statement
executes: only the parameters. -/
def augAssignLocalNames : List String := ["self", "node"]

/-- Module-level bindings of `ir_generator.py` visible from inside its
methods. -/
def irGeneratorModuleNames : List String :=
  ["OrderedDict", "algorithm", "diagnostic", "ast", "types", "builtins", "ir",
   "_readable_name", "_extract_loc", "IRGenerator"]

/-- `visit_AugAssign` (source lines 260-268).  Its first statement is
`lhs = self.visit(target)`, but `target` is bound neither in the method's
local scope nor at module level (the node's field is `node.target`), so
Python raises a `NameError` before any instruction is emitted. -/
def visit_AugAssign (s : GenState) (_target : Expr) (_op : BinOp) (_value : Expr) : GenState :=
  if augAssignLocalNames.contains "target" || irGeneratorModuleNames.contains "target" then
    { s with invalid := true }
  else
    { s with pyError := some "NameError: name target is not defined" }

/-- `visit_For` (source lines 356-410), transcribed exactly: note that
the initial-0 incoming pair of the loop `Phi` is recorded against the
head block itself (`phi.add_incoming(ir.Constant(0, phi.type), head)`),
not against the block that branched into the head. -/
def visit_For (visitE : GenState → Expr → Option Value × GenState)
    (visitList : GenState → List Stmt → GenState)
    (target iter : Expr) (body orelse : List Stmt) (s : GenState) : GenState :=
  let (iterO, s) := visitE s iter
  let iterable := iterO.getD dummyV
  let (length, s) := iterable_len s iterable sizeT
  let (headId, s) := addBlock s "for.head"
  let (_, s) := appendInsn s (.branch headId)
  let s := { s with curBlock := headId }
  let (phiV, s) := appendInsn s (.phi length.ty [])
  let s := addIncoming s phiV (intV 0 length.ty) headId
  let (cond, s) := appendInsn s (.compare .lt phiV length)
  let (breakId, s) := addBlock s "for.break"
  let oldBreak := s.breakTarget
  let s := { s with breakTarget := some breakId }
  let (contId, s) := addBlock s "for.continue"
  let oldCont := s.continueTarget
  let s := { s with continueTarget := some contId, curBlock := contId }
  let (updated, s) := appendInsn s (.binop .add phiV (intV 1 length.ty))
  let s := addIncoming s phiV updated contId
  let (_, s) := appendInsn s (.branch headId)
  let (bodyId, s) := addBlock s "for.body"
  let s := { s with curBlock := bodyId }
  let (elt, s) := iterable_get s iterable phiV
  let s := { s with curAssign := some elt }
  let s := (visitE s target).2
  let s := { s with curAssign := none }
  let s := visitList s body
  let (elseTailId, s) :=
    if !orelse.isEmpty then
      let (etId, s) := addBlock s "for.else"
      let s := { s with curBlock := etId }
      (some etId, visitList s orelse)
    else (none, s)
  let (tailId, s) := addBlock s "for.tail"
  let s := { s with curBlock := tailId }
  let (elseDest, s) :=
    match elseTailId with
    | some etId =>
        let s := if !(blockTerminated s etId) then (appendInsnTo s etId (.branch tailId)).2 else s
        (etId, s)
    | none => (tailId, s)
  let (_, s) := appendInsnTo s headId (.branchIf cond bodyId elseDest)
  let s := if !(blockTerminated s bodyId) then (appendInsnTo s bodyId (.branch contId)).2 else s
  let (_, s) := appendInsnTo s breakId (.branch tailId)
  { s with breakTarget := oldBreak, continueTarget := oldCont }

/-- `visit_Try` (source lines 421-519), transcribed exactly, including:
the restoration of break/continue/return targets after the body but
before the handlers are lowered; handlers that fall through being wired
to branch to the tail block (not the finalizer), and only when the body
block itself is unterminated; and the indirect branch's candidate list
being only the collected outer targets (never the tail block recorded in
`.k` on the normal-completion path). -/
def visit_Try (visitList : GenState → List Stmt → GenState)
    (body : List Stmt) (handlers : List (Option String × Ty × List Stmt))
    (orelse finalbody : List Stmt) (s : GenState) : GenState :=
  let (dispatcherId, s) := addBlock s "try.dispatch"
  let (lpVal, s) := appendInsnTo s dispatcherId (.landingPad [])
  let hasFinal := !finalbody.isEmpty
  let (finalState, finalTargets, breakProxy, contProxy, retProxy, oldBreak, oldCont, oldRet, s) :=
    if hasFinal then
      let (fs, s) := appendInsn s (.alloc [] .envT "finalstate")
      let (bp, oldB, ts1, s) :=
        match s.breakTarget with
        | some ob =>
            let (bpId, s) := addBlock s "try.break"
            let s := { s with breakTarget := some bpId }
            let (_, s) := appendInsnTo s bpId (.setLocal fs ".k" (blockV ob))
            (some bpId, some ob, [ob], s)
        | none => (none, none, [], s)
      let (cp, oldC, ts2, s) :=
        match s.continueTarget with
        | some oc =>
            let (cpId, s) := addBlock s "try.continue"
            let s := { s with continueTarget := some cpId }
            let (_, s) := appendInsnTo s cpId (.setLocal fs ".k" (blockV oc))
            (some cpId, some oc, [oc], s)
        | none => (none, none, [], s)
      let (rpId, s) := addBlock s "try.return"
      let oldR := s.returnTarget
      let s := { s with returnTarget := some rpId }
      let (ts3, s) :=
        match oldR with
        | some orv =>
            let (_, s) := appendInsnTo s rpId (.setLocal fs ".k" (blockV orv))
            ([orv], s)
        | none =>
            let (raId, s) := addBlock s "try.doreturn"
            let (v, s) := appendInsnTo s raId (.getLocal s.curPrivEnv ".return" .noneT)
            let (_, s) := appendInsnTo s raId (.ret v)
            let (_, s) := appendInsnTo s rpId (.setLocal fs ".k" (blockV raId))
            ([raId], s)
      (fs, ts1 ++ ts2 ++ ts3, bp, cp, some rpId, oldB, oldC, oldR, s)
    else
      (dummyV, [], none, none, none, none, none, none, s)
  let (bodyBlkId, s) := addBlock s "try.body"
  let (_, s) := appendInsn s (.branch bodyBlkId)
  let s := { s with curBlock := bodyBlkId }
  let oldUnwind := s.unwindTarget
  let s := { s with unwindTarget := some dispatcherId }
  let s := visitList s body
  let s := { s with unwindTarget := oldUnwind }
  let s := visitList s orelse
  let bodyEnd := s.curBlock
  let s :=
    if hasFinal then
      let s := if s.breakTarget.isSome then { s with breakTarget := oldBreak } else s
      let s := if s.continueTarget.isSome then { s with continueTarget := oldCont } else s
      { s with returnTarget := oldRet }
    else s
  let (handlerIds, s) := handlers.foldl
    (fun (p : List Nat × GenState) h =>
      let (ids, s) := p
      let (hid, s) := addBlock s ("handler." ++ h.2.1.name)
      let s := { s with curBlock := hid }
      let s := addClause s lpVal hid h.2.1
      let s :=
        match h.1 with
        | some nm =>
            let (exn, s) := appendInsn s (.builtin "exncast" [lpVal] h.2.1)
            set_local s nm exn
        | none => s
      (ids ++ [hid], visitList s h.2.2))
    ([], s)
  let (finalizerId, s) :=
    if hasFinal then
      let (fid, s) := addBlock s "finally"
      let s := { s with curBlock := fid }
      let s := visitList s finalbody
      let s :=
        if !(blockTerminated s s.curBlock) then
          let (dest, s) := appendInsn s (.getLocal finalState ".k" .blockT)
          (appendInsn s (.indirectBranch dest finalTargets)).2
        else s
      (fid, s)
    else (0, s)
  let (tailId, s) := addBlock s "try.tail"
  let s :=
    if hasFinal then
      let s :=
        if s.breakTarget.isSome then (appendInsnTo s (breakProxy.getD 0) (.branch finalizerId)).2
        else s
      let s :=
        if s.continueTarget.isSome then (appendInsnTo s (contProxy.getD 0) (.branch finalizerId)).2
        else s
      (appendInsnTo s (retProxy.getD 0) (.branch finalizerId)).2
    else s
  let s :=
    if !(blockTerminated s bodyEnd) then
      if hasFinal then
        let (_, s) := appendInsnTo s bodyEnd (.setLocal finalState ".k" (blockV tailId))
        let (_, s) := appendInsnTo s bodyEnd (.branch finalizerId)
        handlerIds.foldl
          (fun s hid =>
            if !(blockTerminated s hid) then
              let (_, s) := appendInsnTo s hid (.setLocal finalState ".k" (blockV tailId))
              (appendInsnTo s hid (.branch tailId)).2
            else s) s
      else
        let (_, s) := appendInsnTo s bodyEnd (.branch tailId)
        handlerIds.foldl
          (fun s hid =>
            if !(blockTerminated s hid) then (appendInsnTo s hid (.branch tailId)).2 else s) s
    else s
  if !(blockPredecessorsIn s s.curFunc tailId).isEmpty then
    { s with curBlock := tailId }
  else
    removeBlockFromFunc s tailId

/-- `_visit_one` dispatch over statements, with fuel for the nested
statement lists of `try`/`for`.  Exhausted fuel (never reached by the
concrete programs below) marks the state invalid. -/
def visitStmt : Nat → GenState → Stmt → GenState
  | 0, s, _ => { s with invalid := true }
  | fuel + 1, s, st =>
    match st with
    | .passS => s
    | .exprS e => (visitExpr fuel s e).2
    | .assign target value =>
        let (vO, s) := visitExpr fuel s value
        (match vO with
         | some v =>
            let s := { s with curAssign := some v }
            let s := (visitExpr fuel s target).2
            { s with curAssign := none }
         | none => { s with curAssign := none, invalid := true })
    | .augAssign t op v => visit_AugAssign s t op v
    | .ret v =>
        let (rv, s) :=
          match v with
          | none => (noneV, s)
          | some e =>
              let (o, s) := visitExpr fuel s e
              (o.getD dummyV, s)
        (match s.returnTarget with
         | none => (appendInsn s (.ret rv)).2
         | some rt =>
             let (_, s) := appendInsn s (.setLocal s.curPrivEnv ".return" rv)
             (appendInsn s (.branch rt)).2)
    | .brk =>
        (match s.breakTarget with
         | some b => (appendInsn s (.branch b)).2
         | none => { s with invalid := true })
    | .cont =>
        (match s.continueTarget with
         | some c => (appendInsn s (.branch c)).2
         | none => { s with invalid := true })
    | .raiseS e =>
        let (o, s) := visitExpr fuel s e
        (appendInsn s (.raiseExn (o.getD dummyV))).2
    | .tryS b hs o f => visit_Try (runBody (visitStmt fuel)) b hs o f s
    | .forS t i b o => visit_For (visitExpr fuel) (runBody (visitStmt fuel)) t i b o s

def visitStmtList (fuel : Nat) : GenState → List Stmt → GenState :=
  runBody (visitStmt fuel)

/-! ### Function and module lowering -/

def joinDots (l : List String) : String := String.intercalate "." l

/-- Saved context of `visit_function`, restored by its `finally`. -/
structure FuncCtx where
  funcId : Nat
  entryId : Nat
  bodyResult : Value
  oldName : List String
  oldFunc : Nat
  oldBlock : Nat
  oldGlobals : List String
  oldEnv : Value
  oldPriv : Value
deriving Repr

/-- The positional-argument binding loop of `visit_function` (source
lines 202-203), named so that the argument-binding theorems can induct
on it. -/
def bindPositionalArgs (env : Value) (pairs : List ((String × Ty) × Value)) (s : GenState) :
    GenState :=
  pairs.foldl (fun s p => (appendInsn s (.setLocal env p.1.1 p.2)).2) s

/-- Stage 1 of `visit_function` (source lines 158-210): default
expressions, function creation, entry block, environments, argument
binding, then the body lowering. -/
def funcStage1 (visitE : GenState → Expr → Option Value × GenState)
    (visitList : GenState → List Stmt → GenState)
    (node : FuncNode) (isLambda : Bool) (s : GenState) : FuncCtx × GenState :=
  let (defaults, s) := node.optargs.foldl
    (fun (p : List String × GenState) oa =>
      let (ds, s) := p
      let (dv, s) := visitE s oa.2.2
      let envDefaultName := "default." ++ oa.1
      let (_, s) := appendInsn s (.setLocal s.curEnv envDefaultName (dv.getD dummyV))
      (ds ++ [envDefaultName], s))
    ([], s)
  let fname := if isLambda then "lambda" else node.fname
  let oldName := s.nameStack
  let s := { s with nameStack := s.nameStack ++ [fname] }
  let envArg : Value := ⟨.argRef "outerenv", .envT⟩
  let args : List Value := node.args.map (fun a => ⟨.argRef ("arg." ++ a.1), a.2⟩)
  let optargVs : List Value := node.optargs.map (fun a => ⟨.argRef ("arg." ++ a.1), .optionT⟩)
  let funcId := s.funcs.length
  let s := { s with funcs := s.funcs ++
      [(⟨joinDots (s.nameStack), [envArg] ++ args ++ optargVs, node.retTy, []⟩ : IRFunction)] }
  let oldFunc := s.curFunc
  let s := { s with curFunc := funcId }
  let (entryId, s) := addBlock s ""
  let oldBlock := s.curBlock
  let s := { s with curBlock := entryId }
  let oldGlobals := s.globalsInScope
  let s := { s with globalsInScope := node.globals }
  let (env, s) := appendInsn s (.alloc [] .envT "env")
  let oldEnv := s.curEnv
  let s := { s with curEnv := env }
  let (oldPriv, s) :=
    if !isLambda then
      let (pv, s) := appendInsn s (.alloc [] .envT "privenv")
      (s.curPrivEnv, { s with curPrivEnv := pv })
    else (s.curPrivEnv, s)
  let (_, s) := appendInsn s (.setLocal env ".outer" envArg)
  let s := bindPositionalArgs env (node.args.zip args) s
  let s := (node.optargs.zip (optargVs.zip defaults)).foldl
    (fun s p =>
      let (d, s) := appendInsn s (.getLocal s.curEnv p.2.2 p.1.2.1)
      let (v2, s) := appendInsn s (.builtin "unwrap" [p.2.1, d] p.1.2.1)
      (appendInsn s (.setLocal env p.1.1 v2)).2) s
  let (result, s) :=
    if isLambda then
      let (r, s) := visitE s node.lamBody
      (r.getD dummyV, s)
    else
      (dummyV, visitList s node.bodyStmts)
  (⟨funcId, entryId, result, oldName, oldFunc, oldBlock, oldGlobals, oldEnv, oldPriv⟩, s)

/-- `visit_function` (source lines 150-229): stage 1, then the epilogue
(lambda: return the body value; none return type: auto-return none;
otherwise `Unreachable`), the `finally` restores, and the closure value
paired with the restored (enclosing) environment. -/
def visit_function (visitE : GenState → Expr → Option Value × GenState)
    (visitList : GenState → List Stmt → GenState)
    (node : FuncNode) (isLambda : Bool) (s : GenState) : Option Value × GenState :=
  let (ctx, s) := funcStage1 visitE visitList node isLambda s
  let s :=
    if isLambda then
      terminate s (.ret ctx.bodyResult)
    else if node.retTy = Ty.noneT then
      (if !(blockTerminated s s.curBlock) then (appendInsn s (.ret noneV)).2 else s)
    else
      (if !(blockTerminated s s.curBlock) then (appendInsn s .unreachable).2 else s)
  let s := { s with nameStack := ctx.oldName, curFunc := ctx.oldFunc, curBlock := ctx.oldBlock,
                    globalsInScope := ctx.oldGlobals, curEnv := ctx.oldEnv }
  let s := if !isLambda then { s with curPrivEnv := ctx.oldPriv } else s
  let (cl, s) := appendInsn s (.closure ctx.funcId s.curEnv)
  (some cl, s)

/-- `visit_ModuleT` prologue (source lines 122-136): the synthesized
module-init function, its entry block and both environments. -/
def modulePrologue (s : GenState) : GenState :=
  let funcId := s.funcs.length
  let s := { s with funcs := s.funcs ++
      [(⟨joinDots (s.nameStack ++ ["__modinit__"]), [], .noneT, []⟩ : IRFunction)] }
  let s := { s with curFunc := funcId }
  let (entryId, s) := addBlock s "entry"
  let s := { s with curBlock := entryId }
  let (env, s) := appendInsn s (.alloc [] .envT "env")
  let s := { s with curEnv := env }
  let (pv, s) := appendInsn s (.alloc [] .envT "privenv")
  { s with curPrivEnv := pv }

/-- `visit_ModuleT` (source lines 118-146). -/
def visit_ModuleT (fuel : Nat) (body : List Stmt) (s : GenState) : GenState :=
  let oldFunc := s.curFunc
  let oldBlock := s.curBlock
  let oldEnv := s.curEnv
  let oldPriv := s.curPrivEnv
  let s := modulePrologue s
  let s := visitStmtList fuel s body
  let s := terminate s (.ret noneV)
  { s with curFunc := oldFunc, curBlock := oldBlock, curEnv := oldEnv, curPrivEnv := oldPriv }

/-- The empty generator state (fresh `IRGenerator`). -/
def emptyS : GenState :=
  { arena := [], blocks := [], funcs := [], curFunc := 0, curBlock := 0,
    curEnv := dummyV, curPrivEnv := dummyV, curAssign := none,
    breakTarget := none, continueTarget := none, returnTarget := none, unwindTarget := none,
    globalsInScope := [], nameStack := ["test"], invalid := false, pyError := none }

/-- The state in the middle of lowering a module: all concrete claim
programs are lowered from here (inside `__modinit__`). -/
def moduleState : GenState := modulePrologue emptyS

/-! ### Dataflow evaluation of emitted values -/

/-- Runtime scalar values for the dataflow evaluator. -/
inductive Rt where
  | int (n : Int)
  | bool (b : Bool)
deriving DecidableEq, Repr

/-- Python arithmetic on integers (`//` floors, `%` follows the divisor's
sign). -/
def evalBin : BinOp → Int → Int → Int
  | .add, a, b => a + b
  | .sub, a, b => a - b
  | .mul, a, b => a * b
  | .floordiv, a, b => Int.fdiv a b
  | .modOp, a, b => Int.fmod a b

def evalCmp : CmpOp → Int → Int → Bool
  | .lt, a, b => decide (a < b)
  | .ltE, a, b => decide (a ≤ b)
  | .gt, a, b => decide (a > b)
  | .gtE, a, b => decide (a ≥ b)
  | .eq, a, b => decide (a = b)
  | .notEq, a, b => decide (a ≠ b)

/-- Dataflow evaluator for emitted values: arithmetic, comparisons and
selects are computed from their operands; the value of any other
instruction (such as a `len` builtin or a `GetLocal`) is read from an
oracle that fixes the runtime inputs. -/
def evalV (s : GenState) (oracle : Nat → Option Rt) : Nat → Value → Option Rt
  | _, ⟨.const (.int n), _⟩ => some (.int n)
  | _, ⟨.const (.bool b), _⟩ => some (.bool b)
  | 0, ⟨.insn _, _⟩ => none
  | fuel + 1, ⟨.insn id, _⟩ =>
      (match getInsn s id with
       | .binop op l r =>
          (match evalV s oracle fuel l, evalV s oracle fuel r with
           | some (.int a), some (.int b) => some (.int (evalBin op a b))
           | _, _ => none)
       | .compare op l r =>
          (match evalV s oracle fuel l, evalV s oracle fuel r with
           | some (.int a), some (.int b) => some (.bool (evalCmp op a b))
           | _, _ => none)
       | .select c t f =>
          (match evalV s oracle fuel c with
           | some (.bool true) => evalV s oracle fuel t
           | some (.bool false) => evalV s oracle fuel f
           | _ => none)
       | _ => oracle id)
  | _, _ => none

/-- All values an instruction reads. -/
def Insn.operands : Insn → List Value
  | .alloc ops _ _ => ops
  | .getLocal e _ _ => [e]
  | .setLocal e _ v => [e, v]
  | .getAttr o _ _ => [o]
  | .setAttr o _ v => [o, v]
  | .getElem o i => [o, i]
  | .setElem o i v => [o, i, v]
  | .binop _ l r => [l, r]
  | .unaryop l => [l]
  | .compare _ l r => [l, r]
  | .select c t f => [c, t, f]
  | .phi _ inc => inc.map (fun p => p.1)
  | .builtin _ ops _ => ops
  | .closure _ e => [e]
  | .coerce v _ => [v]
  | .branchIf c _ _ => [c]
  | .indirectBranch d _ => [d]
  | .ret v => [v]
  | .raiseExn v => [v]
  | _ => []

/-- Does the instruction read the value of arena id `id`? -/
def usesId (i : Insn) (id : Nat) : Bool :=
  i.operands.any (fun v => v.kind = VKind.insn id)

/-! ### Claim fixtures: the concrete programs each claim is settled on -/

/-- C1 program: `try: pass / except Exc: pass / finally: pass`. -/
def c1Stmt : Stmt :=
  .tryS [.passS] [(none, .otherT "Exc", [.passS])] [] [.passS]

def c1S : GenState := visitStmtList 10 moduleState [c1Stmt]

/-- C2 program: `def f() -> None: try: return / except A: pass / except B: pass`. -/
def c2Node : FuncNode :=
  ⟨"f", [], [], .noneT,
   [.tryS [.ret none] [(none, .otherT "A", [.passS]), (none, .otherT "B", [.passS])] [] []],
   .num 0 .int32, []⟩

def c2S : GenState := (visit_function (visitExpr 10) (visitStmtList 10) c2Node false moduleState).2

/-- C3 program: `def f(xs) -> None: for x in xs: pass`. -/
def c3Node : FuncNode :=
  ⟨"f", [("xs", .listT)], [], .noneT,
   [.forS (.name "x" .int32) (.name "xs" .listT) [.passS] []],
   .num 0 .int32, []⟩

def c3S : GenState := (visit_function (visitExpr 10) (visitStmtList 10) c3Node false moduleState).2

/-- C4 program: `def f(a, b) -> None: a[0:4:2] = b`. -/
def c4Node : FuncNode :=
  ⟨"f", [("a", .listT), ("b", .listT)], [], .noneT,
   [.assign (.subscriptSlice (.name "a" .listT)
              (some (.num 0 .int32)) (some (.num 4 .int32)) (some (.num 2 .int32))
              .int32 .listT)
            (.name "b" .listT)],
   .num 0 .int32, []⟩

def c4S : GenState := (visit_function (visitExpr 10) (visitStmtList 10) c4Node false moduleState).2

/-- C5 lowering: `_map_index` applied to constant length and index in the
module entry context. -/
def c5Lower (n i : Int) : Value × GenState :=
  map_index moduleState (intV n .int32) (intV i .int32)

/-- C7 program: `def f() -> None: try: pass / except Exc: return / finally: pass`. -/
def c7Node : FuncNode :=
  ⟨"f", [], [], .noneT,
   [.tryS [.passS] [(none, .otherT "Exc", [.ret none])] [] [.passS]],
   .num 0 .int32, []⟩

def c7S : GenState := (visit_function (visitExpr 10) (visitStmtList 10) c7Node false moduleState).2

/-- C9 expression: `xs * 2` with `xs` a list. -/
def c9Expr : Expr := .binop .mul (.name "xs" .listT) (.num 2 .int32) .listT

def c9Res : Option Value × GenState := visitExpr 10 moduleState c9Expr

def c9S : GenState := c9Res.2

/-- The predecessor blocks a `Phi` records in its incoming pairs. -/
def phiIncomingBlocks (i : Insn) : List Nat :=
  match i with
  | .phi _ inc => inc.map (fun p => p.2)
  | _ => []

def Insn.isRet : Insn → Bool
  | .ret _ => true
  | _ => false

/-- Number of `Return` instructions a block holds. -/
def countReturnsInBlock (s : GenState) (bid : Nat) : Nat :=
  ((getBlock s bid).insns.filter (fun i => i.isRet)).length

/-- Number of `Return` instructions in a function's emitted body. -/
def funcReturnCount (s : GenState) (fid : Nat) : Nat :=
  ((getFunc s fid).blockIds.map (fun b => countReturnsInBlock s b)).sum

/-- C6 fixture: a function with positional arguments `argNames`, no
optional arguments, return type int32 and the single body statement
`return m`. -/
def c6Node (argNames : List (String × Ty)) (m : Int) : FuncNode :=
  ⟨"f", argNames, [], .int32, [.ret (some (.num m .int32))], .num 0 .int32, []⟩

/-- The `Argument` values `visit_function` creates for the positional
arguments. -/
def c6ArgValues (argNames : List (String × Ty)) : List Value :=
  argNames.map (fun a => (⟨.argRef ("arg." ++ a.1), a.2⟩ : Value))

/-- The generator state right after `visit_function`'s prologue on
`c6Node` (function record, entry block, environments, `.outer` link),
just before the positional arguments are bound. -/
def c6PreState (argNames : List (String × Ty)) : GenState :=
  { arena := [
      ⟨.alloc [] .envT "env", some (0, 0)⟩,
      ⟨.alloc [] .envT "privenv", some (0, 1)⟩,
      ⟨.alloc [] .envT "env", some (1, 0)⟩,
      ⟨.alloc [] .envT "privenv", some (1, 1)⟩,
      ⟨.setLocal ⟨.insn 2, .envT⟩ ".outer" ⟨.argRef "outerenv", .envT⟩, some (1, 2)⟩],
    blocks := [
      ⟨"entry", [.alloc [] .envT "env", .alloc [] .envT "privenv"]⟩,
      ⟨"", [.alloc [] .envT "env", .alloc [] .envT "privenv",
            .setLocal ⟨.insn 2, .envT⟩ ".outer" ⟨.argRef "outerenv", .envT⟩]⟩],
    funcs := [
      ⟨"test.__modinit__", [], .noneT, [0]⟩,
      ⟨"test.f", ⟨.argRef "outerenv", .envT⟩ :: (c6ArgValues argNames ++ []), .int32, [1]⟩],
    curFunc := 1, curBlock := 1,
    curEnv := ⟨.insn 2, .envT⟩, curPrivEnv := ⟨.insn 3, .envT⟩,
    curAssign := none, breakTarget := none, continueTarget := none, returnTarget := none,
    unwindTarget := none, globalsInScope := [], nameStack := ["test", "f"],
    invalid := false, pyError := none }

/-- The context restoration `visit_function` performs in its `finally`
block (source lines 221-228), as a function of the epilogue state. -/
def restoredState (ctx : FuncCtx) (sE : GenState) (isLambda : Bool) : GenState :=
  let s := { sE with nameStack := ctx.oldName, curFunc := ctx.oldFunc, curBlock := ctx.oldBlock,
                     globalsInScope := ctx.oldGlobals, curEnv := ctx.oldEnv }
  if !isLambda then { s with curPrivEnv := ctx.oldPriv } else s

/-- C8 witness fixture: the context `funcStage1` yields for the lambda
`lambda: 7` lowered from the module state. -/
def c8wCtx : FuncCtx :=
  ⟨1, 1, intV 7 .int32, ["test"], 0, 0, [], ⟨.insn 0, .envT⟩, ⟨.insn 1, .envT⟩⟩

/-- C8 witness fixture: the state `funcStage1` yields for `lambda: 7`
(the lambda's entry block is still open: no terminator yet). -/
def c8wS1 : GenState :=
  { arena := [⟨.alloc [] .envT "env", some (0, 0)⟩, ⟨.alloc [] .envT "privenv", some (0, 1)⟩,
      ⟨.alloc [] .envT "env", some (1, 0)⟩,
      ⟨.setLocal ⟨.insn 2, .envT⟩ ".outer" ⟨.argRef "outerenv", .envT⟩, some (1, 1)⟩],
    blocks := [⟨"entry", [.alloc [] .envT "env", .alloc [] .envT "privenv"]⟩,
      ⟨"", [.alloc [] .envT "env", .setLocal ⟨.insn 2, .envT⟩ ".outer" ⟨.argRef "outerenv", .envT⟩]⟩],
    funcs := [⟨"test.__modinit__", [], .noneT, [0]⟩,
      ⟨"test.lambda", [⟨.argRef "outerenv", .envT⟩], .int32, [1]⟩],
    curFunc := 1, curBlock := 1, curEnv := ⟨.insn 2, .envT⟩, curPrivEnv := ⟨.insn 1, .envT⟩,
    curAssign := none, breakTarget := none, continueTarget := none, returnTarget := none,
    unwindTarget := none, globalsInScope := [], nameStack := ["test", "lambda"],
    invalid := false, pyError := none }

/-! ### Helper lemmas about single emissions -/

theorem list_getD_set {α : Type} (l : List α) (i j : Nat) (a d : α) :
    (l.set i a).getD j d =
      if i = j ∧ i < l.length then a else l.getD j d := by
  simp only [List.getD_eq_getElem?_getD, List.getElem?_set]
  by_cases h1 : i = j
  · subst h1
    by_cases h2 : i < l.length
    · simp [h2]
    · have hnone : l[i]? = none := List.getElem?_eq_none (by omega)
      simp [h2, hnone]
  · simp [h1]

/-- Appending an instruction touches only the arena and the blocks. -/
theorem appendInsn_fields (s : GenState) (i : Insn) :
    ((appendInsn s i).2).funcs = s.funcs ∧
    ((appendInsn s i).2).curFunc = s.curFunc ∧
    ((appendInsn s i).2).curBlock = s.curBlock ∧
    ((appendInsn s i).2).curEnv = s.curEnv ∧
    ((appendInsn s i).2).curPrivEnv = s.curPrivEnv ∧
    ((appendInsn s i).2).returnTarget = s.returnTarget ∧
    ((appendInsn s i).2).invalid = s.invalid ∧
    ((appendInsn s i).2).pyError = s.pyError ∧
    ((appendInsn s i).2).blocks.length = s.blocks.length := by
  unfold appendInsn appendInsnTo
  split <;> simp

/-- Appending a non-terminator, non-return instruction preserves each
block's return count and termination status. -/
theorem appendInsn_frame (s : GenState) (i : Insn)
    (hterm : i.isTerminator = false) (hret : i.isRet = false) :
    (∀ bid, countReturnsInBlock ((appendInsn s i).2) bid = countReturnsInBlock s bid) ∧
    (∀ bid, blockTerminated ((appendInsn s i).2) bid = blockTerminated s bid) := by
  unfold appendInsn appendInsnTo
  split
  · simp [countReturnsInBlock, getBlock, blockTerminated]
  · rename_i hnt
    refine ⟨?_, ?_⟩
    · intro bid
      simp only [countReturnsInBlock, getBlock, list_getD_set]
      by_cases hb : s.curBlock = bid ∧ s.curBlock < s.blocks.length
      · obtain ⟨hb1, hlen⟩ := hb
        subst hb1
        simp [hlen, List.filter_append, hret, getBlock]
      · simp only [hb, if_false]
    · intro bid
      simp only [blockTerminated, getBlock, list_getD_set]
      by_cases hb : s.curBlock = bid ∧ s.curBlock < s.blocks.length
      · obtain ⟨hb1, hlen⟩ := hb
        subst hb1
        simp only [hlen, and_self, eq_self_iff_true, if_true, true_and]
        simp only [List.getLast?_concat]
        simp only [blockTerminated, getBlock, Bool.not_eq_true] at hnt
        rcases hl : (s.blocks.getD s.curBlock default).insns.getLast? with _ | last
        · simp only [List.getD_eq_getElem?_getD] at hl
          simp [hl, hterm]
        · simp only [List.getD_eq_getElem?_getD] at hl
          simp [hl] at hnt
          simp [hl, hterm, hnt]
      · simp only [hb, if_false]

/-- Appending to an open, existing current block adds the instruction:
the block's return count grows when the instruction is a `Return`, and
its termination status becomes the instruction's terminator-ness. -/
theorem appendInsn_push (s : GenState) (i : Insn)
    (hnt : blockTerminated s s.curBlock = false)
    (hlen : s.curBlock < s.blocks.length) :
    countReturnsInBlock ((appendInsn s i).2) s.curBlock =
      countReturnsInBlock s s.curBlock + (if i.isRet then 1 else 0) ∧
    blockTerminated ((appendInsn s i).2) s.curBlock = i.isTerminator := by
  unfold appendInsn appendInsnTo
  simp only [hnt, Bool.false_eq_true, if_false]
  refine ⟨?_, ?_⟩
  · simp only [countReturnsInBlock, getBlock, list_getD_set, hlen, and_self,
      eq_self_iff_true, if_true, true_and, List.filter_append]
    by_cases hri : i.isRet <;> simp [hri, getBlock]
  · simp only [blockTerminated, getBlock, list_getD_set, hlen, and_self,
      eq_self_iff_true, if_true, true_and, List.getLast?_concat]

/-- The argument-binding fold emits only `SetLocal`s: every relevant
context field, every block's return count and every block's termination
status are preserved. -/
theorem bindPositionalArgs_frame (env : Value) (pairs : List ((String × Ty) × Value)) :
    ∀ s : GenState,
    (bindPositionalArgs env pairs s).funcs = s.funcs ∧
    (bindPositionalArgs env pairs s).curFunc = s.curFunc ∧
    (bindPositionalArgs env pairs s).curBlock = s.curBlock ∧
    (bindPositionalArgs env pairs s).curPrivEnv = s.curPrivEnv ∧
    (bindPositionalArgs env pairs s).returnTarget = s.returnTarget ∧
    (bindPositionalArgs env pairs s).invalid = s.invalid ∧
    (bindPositionalArgs env pairs s).pyError = s.pyError ∧
    (bindPositionalArgs env pairs s).blocks.length = s.blocks.length ∧
    (∀ bid, countReturnsInBlock (bindPositionalArgs env pairs s) bid =
      countReturnsInBlock s bid) ∧
    (∀ bid, blockTerminated (bindPositionalArgs env pairs s) bid = blockTerminated s bid) := by
  induction pairs with
  | nil =>
    intro s
    refine ⟨rfl, rfl, rfl, rfl, rfl, rfl, rfl, rfl, fun _ => rfl, fun _ => rfl⟩
  | cons p ps ih =>
    intro s
    obtain ⟨e1, e2, e3, e4, e5, e6, e7, e8, e9⟩ :=
      appendInsn_fields s (.setLocal env p.1.1 p.2)
    obtain ⟨f1, f2⟩ := appendInsn_frame s (.setLocal env p.1.1 p.2) rfl rfl
    obtain ⟨g1, g2, g3, g4, g5, g6, g7, g8, g9, g10⟩ :=
      ih ((appendInsn s (.setLocal env p.1.1 p.2)).2)
    have hunf : bindPositionalArgs env (p :: ps) s =
        bindPositionalArgs env ps ((appendInsn s (.setLocal env p.1.1 p.2)).2) := rfl
    rw [hunf]
    exact ⟨g1.trans e1, g2.trans e2, g3.trans e3, g4.trans e5, g5.trans e6,
      g6.trans e7, g7.trans e8, g8.trans e9,
      fun bid => (g9 bid).trans (f1 bid), fun bid => (g10 bid).trans (f2 bid)⟩

/-- `visit_function`'s prologue on `c6Node`, evaluated: everything up to
the argument-binding fold and the body lowering is concrete. -/
theorem c6_pre (argNames : List (String × Ty)) (m : Int) :
    funcStage1 (visitExpr 10) (visitStmtList 10) (c6Node argNames m) false moduleState =
      (⟨1, 1, dummyV, ["test"], 0, 0, [], ⟨.insn 0, .envT⟩, ⟨.insn 1, .envT⟩⟩,
       visitStmtList 10
         (bindPositionalArgs ⟨.insn 2, .envT⟩ (argNames.zip (c6ArgValues argNames))
           (c6PreState argNames))
         [.ret (some (.num m .int32))]) := rfl

/-- Lowering the single statement `return m` with no return proxy in
scope appends one `Return` instruction. -/
theorem visitStmtList_single_ret (s : GenState) (m : Int) (hrt : s.returnTarget = none) :
    visitStmtList 10 s [.ret (some (.num m .int32))] =
      (appendInsn s (.ret (intV m .int32))).2 := by
  simp only [visitStmtList, runBody, visitStmt, visitExpr, hrt, ite_self, Option.getD_some]

theorem appendInsn_fst (s : GenState) (i : Insn) :
    (appendInsn s i).1 = ⟨.insn s.arena.length, i.resultTy⟩ := by
  unfold appendInsn appendInsnTo
  split <;> rfl

theorem appendInsn_arena_len (s : GenState) (i : Insn) :
    (appendInsn s i).2.arena.length = s.arena.length + 1 := by
  unfold appendInsn appendInsnTo
  split <;> simp

theorem appendInsn_getBlock_other (s : GenState) (i : Insn) (bid : Nat)
    (h : bid ≠ s.curBlock) :
    getBlock (appendInsn s i).2 bid = getBlock s bid := by
  unfold appendInsn appendInsnTo
  split
  · rfl
  · show (s.blocks.set s.curBlock _).getD bid default = _
    rw [list_getD_set, if_neg]
    · rfl
    · exact fun hh => h hh.1.symm

theorem appendInsn_getBlock_self (s : GenState) (i : Insn)
    (hopen : blockTerminated s s.curBlock = false)
    (hlen : s.curBlock < s.blocks.length) :
    (getBlock (appendInsn s i).2 s.curBlock).insns =
      (getBlock s s.curBlock).insns ++ [i] := by
  unfold appendInsn appendInsnTo
  rw [hopen]
  show ((s.blocks.set s.curBlock _).getD s.curBlock default).insns = _
  rw [list_getD_set]
  simp [hlen, getBlock]

theorem funcStage1_oldEnv (visitE : GenState → Expr → Option Value × GenState)
    (visitList : GenState → List Stmt → GenState)
    (fn : String) (ar : List (String × Ty)) (rt : Ty) (bs : List Stmt) (lb : Expr)
    (gl : List String) (il : Bool) (s : GenState) :
    ((funcStage1 visitE visitList ⟨fn, ar, [], rt, bs, lb, gl⟩ il s).1).oldEnv = s.curEnv := by
  show (appendInsn _ (Insn.alloc [] Ty.envT "env")).2.curEnv = s.curEnv
  exact ((appendInsn_fields _ _).2.2.2.1).trans rfl

theorem restoredState_proj (ctx : FuncCtx) (sE : GenState) (il : Bool) :
    (restoredState ctx sE il).curBlock = ctx.oldBlock ∧
    (restoredState ctx sE il).curEnv = ctx.oldEnv ∧
    (restoredState ctx sE il).blocks = sE.blocks ∧
    (restoredState ctx sE il).arena = sE.arena := by
  unfold restoredState
  split <;> exact ⟨rfl, rfl, rfl, rfl⟩

/-- Appending the closure to the restored caller state: the caller's
block gains exactly the closure instruction, every other block is
untouched, and the yielded value is the fresh arena id. -/
theorem closure_append_shape (ctx : FuncCtx) (sE s1 : GenState) (il : Bool)
    (hne : ctx.oldBlock ≠ s1.curBlock)
    (hlenOld : ctx.oldBlock < s1.blocks.length)
    (hopenOld : blockTerminated s1 ctx.oldBlock = false)
    (hblocks : ∀ bid, bid ≠ s1.curBlock → getBlock sE bid = getBlock s1 bid)
    (hlen2 : sE.blocks.length = s1.blocks.length) :
    (getBlock (appendInsn (restoredState ctx sE il) (.closure ctx.funcId ctx.oldEnv)).2
        ctx.oldBlock).insns =
      (getBlock s1 ctx.oldBlock).insns ++ [.closure ctx.funcId ctx.oldEnv] ∧
    (∀ bid, bid ≠ ctx.oldBlock →
      getBlock (appendInsn (restoredState ctx sE il) (.closure ctx.funcId ctx.oldEnv)).2 bid =
        getBlock sE bid) ∧
    (appendInsn (restoredState ctx sE il) (.closure ctx.funcId ctx.oldEnv)).1 =
      ⟨.insn sE.arena.length, .funcT⟩ ∧
    (appendInsn (restoredState ctx sE il) (.closure ctx.funcId ctx.oldEnv)).2.arena.length =
      sE.arena.length + 1 := by
  obtain ⟨p1, p2, p3, p4⟩ := restoredState_proj ctx sE il
  have hgb : ∀ bid, getBlock (restoredState ctx sE il) bid = getBlock sE bid := by
    intro bid
    unfold getBlock
    rw [p3]
  have hopen1 : blockTerminated (restoredState ctx sE il)
      (restoredState ctx sE il).curBlock = false := by
    rw [p1]
    simp only [blockTerminated] at hopenOld ⊢
    rw [hgb, hblocks _ hne]
    exact hopenOld
  have hlen1 : (restoredState ctx sE il).curBlock < (restoredState ctx sE il).blocks.length := by
    rw [p1, p3, hlen2]
    exact hlenOld
  refine ⟨?_, ?_, ?_, ?_⟩
  · have h := appendInsn_getBlock_self (restoredState ctx sE il)
      (.closure ctx.funcId ctx.oldEnv) hopen1 hlen1
    rw [p1] at h
    rw [h, hgb, hblocks _ hne]
  · intro bid hb
    have h := appendInsn_getBlock_other (restoredState ctx sE il)
      (.closure ctx.funcId ctx.oldEnv) bid (by rw [p1]; exact hb)
    rw [h, hgb]
  · rw [appendInsn_fst, p4]
    rfl
  · rw [appendInsn_arena_len, p4]

/-! ### Theorems -/

/-- C1: refuted on `try: pass / except Exc: pass / finally: pass` lowered
inside `__modinit__` (blocks: 4 = try.body, 5 = handler.Exc, 6 = finally,
7 = try.tail, 3 = try.doreturn).  The try body's normal completion
records the after-try block 7 in `.k` and branches into the finally
block, but (i) the handler's normal completion branches directly to the
after-try block 7, bypassing the finally block 6, and (ii) the indirect
branch at the end of the finally block has candidate set `[3]` (only the
synthesized deferred-return block), which does not contain the recorded
continuation 7, so the normal-completion path cannot reach its real
target through the dispatch. -/
theorem c1_try_finally_dispatch_counterexample :
    (getBlock c1S 4).bname = "try.body" ∧
    (getBlock c1S 4).insns =
      [.setLocal ⟨.insn 3, .envT⟩ ".k" (blockV 7), .branch 6] ∧
    (getBlock c1S 5).bname = "handler.Exc" ∧
    (getBlock c1S 5).insns =
      [.setLocal ⟨.insn 3, .envT⟩ ".k" (blockV 7), .branch 7] ∧
    (getBlock c1S 6).bname = "finally" ∧
    (getBlock c1S 6).insns =
      [.getLocal ⟨.insn 3, .envT⟩ ".k" .blockT,
       .indirectBranch ⟨.insn 8, .blockT⟩ [3]] ∧
    (getBlock c1S 7).bname = "try.tail" ∧
    ((7 : Nat) ∈ ([3] : List Nat) → False) ∧
    c1S.invalid = false ∧ c1S.pyError = none := by
  decide

/-- C2: refuted on `def f() -> None: try: return / except A: pass /
except B: pass`.  The body block is terminated by the lowered `return`,
so the loop that would terminate fall-through handlers is never entered:
block 4 (`handler.A`) stays in the emitted function with zero
instructions, hence zero terminators. -/
theorem c2_unterminated_handler_counterexample :
    (4 : Nat) ∈ (getFunc c2S 1).blockIds ∧
    (getBlock c2S 4).bname = "handler.A" ∧
    (getBlock c2S 4).insns = [] ∧
    blockTerminated c2S 4 = false ∧
    c2S.invalid = false ∧ c2S.pyError = none := by
  decide

/-- C3: refuted on `def f(xs) -> None: for x in xs: pass`.  The loop-index
`Phi` (arena id 9, first instruction of block 2 = for.head) records
incoming predecessors `[2, 4]` — the head block itself and the continue
block — while the blocks that actually branch into block 2 are `[1, 4]`
(the preheader and the continue block): the initial-0 pair is recorded
against the head block, which never branches to itself. -/
theorem c3_for_phi_predecessors_counterexample :
    (c3S.arena.getD 9 ⟨.unreachable, none⟩).owner = some (2, 0) ∧
    (getBlock c3S 2).bname = "for.head" ∧
    phiIncomingBlocks (getInsn c3S 9) = [2, 4] ∧
    blockPredecessorsIn c3S 1 2 = [1, 4] ∧
    (2 : Nat) ∈ phiIncomingBlocks (getInsn c3S 9) ∧
    ((2 : Nat) ∈ blockPredecessorsIn c3S 1 2 → False) ∧
    ((1 : Nat) ∈ phiIncomingBlocks (getInsn c3S 9) → False) ∧
    c3S.invalid = false ∧ c3S.pyError = none := by
  decide

/-- C4: refuted on `def f(a, b) -> None: a[0:4:2] = b`.  The emitted
length check (arena id 30) compares the computed slice length (id 29)
with the length of the assignment target `a` (id 9, the only `len`
builtin in the whole graph — the right-hand side's length is never
computed), not with the right-hand side's length.  Evaluating with
`len(a) = 5`: both inline bounds checks pass (ids 15 and 24), the slice
length is 2 — equal to the length of the two-element right-hand side —
yet the check evaluates to false and the conditional branch (last
instruction of block 5) falls into block 6, which allocates and raises a
ValueError. -/
theorem c4_slice_check_counterexample :
    getInsn c4S 8 = .getLocal ⟨.insn 2, .envT⟩ "a" .listT ∧
    getInsn c4S 7 = .getLocal ⟨.insn 2, .envT⟩ "b" .listT ∧
    getInsn c4S 9 = .builtin "len" [⟨.insn 8, .listT⟩] .int32 ∧
    getInsn c4S 30 = .compare .eq ⟨.insn 29, .int32⟩ ⟨.insn 9, .int32⟩ ∧
    (c4S.arena.filter (fun e =>
        match e.insn with
        | .builtin "len" _ _ => true
        | _ => false)).map (fun e => e.insn) =
      [.builtin "len" [⟨.insn 8, .listT⟩] .int32] ∧
    evalV c4S (fun id => if id = 9 then some (.int 5) else none) 20 ⟨.insn 15, .boolT⟩ =
      some (.bool true) ∧
    evalV c4S (fun id => if id = 9 then some (.int 5) else none) 20 ⟨.insn 24, .boolT⟩ =
      some (.bool true) ∧
    evalV c4S (fun id => if id = 9 then some (.int 5) else none) 20 ⟨.insn 29, .int32⟩ =
      some (.int 2) ∧
    evalV c4S (fun id => if id = 9 then some (.int 5) else none) 20 ⟨.insn 30, .boolT⟩ =
      some (.bool false) ∧
    (getBlock c4S 5).insns.getLast? = some (.branchIf ⟨.insn 30, .boolT⟩ 7 6) ∧
    (getBlock c4S 6).insns =
      [.alloc [] .exnValueError "ValueError", .raiseExn ⟨.insn 31, .exnValueError⟩] ∧
    c4S.invalid = false ∧ c4S.pyError = none := by
  decide

set_option maxHeartbeats 4000000

/-- C5: confirmed on the `_map_index` lowering applied to a constant
length `n` and constant index `i` (`c5Lower`; arena ids: 4 = the mapped
`Select`, 7 = the in-bounds condition, 8 = the `IndexError` allocation;
blocks: 1 = out-of-bounds, 2 = in-bounds continuation).  The mapped index
— the value `_map_index` returns, which the subsequent element access
uses — evaluates to `n + i` for negative `i` and to `i` otherwise, so
index `-k` with `1 ≤ k ≤ n` maps to `n - k` and its bounds check
evaluates to true; the block ends with a conditional branch on the
bounds check whose false successor allocates and raises an `IndexError`,
the lowering continues in the in-bounds block (curBlock = 2), and for
any `i` whose mapped value falls outside `[0, n)` the check evaluates to
false, taking the raising path. -/
theorem c5_map_index_semantics (n k i : Int) (h1 : 1 ≤ k) (h2 : k ≤ n) :
    (c5Lower n i).1 = ⟨.insn 4, .int32⟩ ∧
    evalV (c5Lower n i).2 (fun _ => none) 10 ⟨.insn 4, .int32⟩ =
      some (.int (if i < 0 then n + i else i)) ∧
    evalV (c5Lower n (-k)).2 (fun _ => none) 10 ⟨.insn 4, .int32⟩ =
      some (.int (n - k)) ∧
    evalV (c5Lower n (-k)).2 (fun _ => none) 10 ⟨.insn 7, .boolT⟩ = some (.bool true) ∧
    (getBlock (c5Lower n i).2 0).insns.getLast? = some (.branchIf ⟨.insn 7, .boolT⟩ 2 1) ∧
    (getBlock (c5Lower n i).2 1).insns =
      [.alloc [] .exnIndexError "IndexError", .raiseExn ⟨.insn 8, .exnIndexError⟩] ∧
    (c5Lower n i).2.curBlock = 2 ∧
    (¬ (0 ≤ (if i < 0 then n + i else i) ∧ (if i < 0 then n + i else i) < n) →
      evalV (c5Lower n i).2 (fun _ => none) 10 ⟨.insn 7, .boolT⟩ = some (.bool false)) := by
  have g7 : getInsn (c5Lower n i).2 7 =
      .select ⟨.insn 5, .boolT⟩ ⟨.insn 6, .boolT⟩ (boolV false) := rfl
  have g6 : getInsn (c5Lower n i).2 6 =
      .compare .lt ⟨.insn 4, .int32⟩ (intV n .int32) := rfl
  have g5 : getInsn (c5Lower n i).2 5 =
      .compare .gtE ⟨.insn 4, .int32⟩ (intV 0 .int32) := rfl
  have g4 : getInsn (c5Lower n i).2 4 =
      .select ⟨.insn 2, .boolT⟩ ⟨.insn 3, .int32⟩ (intV i .int32) := rfl
  have g3 : getInsn (c5Lower n i).2 3 =
      .binop .add (intV n .int32) (intV i .int32) := rfl
  have g2 : getInsn (c5Lower n i).2 2 =
      .compare .lt (intV i .int32) (intV 0 .int32) := rfl
  have k7 : getInsn (c5Lower n (-k)).2 7 =
      .select ⟨.insn 5, .boolT⟩ ⟨.insn 6, .boolT⟩ (boolV false) := rfl
  have k6 : getInsn (c5Lower n (-k)).2 6 =
      .compare .lt ⟨.insn 4, .int32⟩ (intV n .int32) := rfl
  have k5 : getInsn (c5Lower n (-k)).2 5 =
      .compare .gtE ⟨.insn 4, .int32⟩ (intV 0 .int32) := rfl
  have k4 : getInsn (c5Lower n (-k)).2 4 =
      .select ⟨.insn 2, .boolT⟩ ⟨.insn 3, .int32⟩ (intV (-k) .int32) := rfl
  have k3 : getInsn (c5Lower n (-k)).2 3 =
      .binop .add (intV n .int32) (intV (-k) .int32) := rfl
  have k2 : getInsn (c5Lower n (-k)).2 2 =
      .compare .lt (intV (-k) .int32) (intV 0 .int32) := rfl
  have d1 : ((-k : Int) < 0) := by omega
  have d2 : ((n + -k : Int) ≥ 0) := by omega
  have d3 : ((n + -k : Int) < n) := by omega
  refine ⟨rfl, ?_, ?_, ?_, rfl, rfl, rfl, ?_⟩
  · by_cases h : i < 0 <;>
      simp [evalV, g4, g3, g2, evalCmp, evalBin, h]
  · simp [evalV, k4, k3, k2, evalCmp, evalBin, d1, ← sub_eq_add_neg]
  · simp [evalV, k7, k6, k5, k4, k3, k2, evalCmp, evalBin, d1, d2, d3]
  · intro hm
    by_cases h : i < 0
    · rw [if_pos h] at hm
      by_cases hge : (0 : Int) ≤ n + i
      · have hlt : ¬ (n + i < n) := by omega
        simp [evalV, g7, g6, g5, g4, g3, g2, evalCmp, evalBin, h, hge, hlt]
      · simp [evalV, g7, g6, g5, g4, g3, g2, evalCmp, evalBin, h, hge]
    · rw [if_neg h] at hm
      have hge : (0 : Int) ≤ i := by omega
      have hlt : ¬ (i < n) := by omega
      simp [evalV, g7, g6, g5, g4, g3, g2, evalCmp, evalBin, h, hge, hlt]

/-- Witness for C5 at length 5, negative index -2 (maps to element 3),
and an out-of-range probe index 7. -/
theorem c5_map_index_semantics_witness :
    (1 : Int) ≤ 2 ∧ (2 : Int) ≤ 5 ∧
    evalV (c5Lower 5 (-2)).2 (fun _ => none) 10 ⟨.insn 4, .int32⟩ =
      some (.int (5 - 2)) :=
  ⟨by decide, by decide, (c5_map_index_semantics 5 2 7 (by decide) (by decide)).2.2.1⟩

set_option maxHeartbeats 400000

/-- C7: refuted on `def f() -> None: try: pass / except Exc: return /
finally: pass`.  The source restores break/continue/return targets right
after the try body and before the handlers are lowered, so the `return`
inside the handler (block 6) is emitted as a direct `Return` — not as
the proxy interception (store `.k`, jump into finally) that the try body
itself receives (block 5): the finally block is bypassed on the
handler-return path. -/
theorem c7_handler_return_counterexample :
    (getBlock c7S 6).bname = "handler.Exc" ∧
    (getBlock c7S 6).insns = [.ret noneV] ∧
    (getBlock c7S 5).bname = "try.body" ∧
    (getBlock c7S 5).insns =
      [.setLocal ⟨.insn 6, .envT⟩ ".k" (blockV 8), .branch 7] ∧
    (getBlock c7S 7).bname = "finally" ∧
    (getBlock c7S 3).bname = "try.return" ∧
    (getBlock c7S 3).insns =
      [.setLocal ⟨.insn 6, .envT⟩ ".k" (blockV 4), .branch 7] ∧
    Insn.successors (Insn.ret noneV) = [] ∧
    c7S.invalid = false ∧ c7S.pyError = none := by
  decide

/-- C9: refuted on the expression `xs * 2` (`xs` a list, lowered in the
module context).  The emitted copy loop stores element `j` of the list at
destination index `k*L` (the `SetElem` id 15 uses the base index id 13 =
outer-phi * length, not the computed id 14 = base + j, which no
instruction reads), the outer loop's next-index value is `L + 1` (id 19,
reading the length id 3, not the outer phi id 7), and the visitor
returns no value at all instead of the freshly allocated result (id 5). -/
theorem c9_list_repetition_counterexample :
    c9Res.1 = none ∧
    getInsn c9S 5 = .alloc [⟨.insn 4, .int32⟩] .listT "" ∧
    getInsn c9S 15 = .setElem ⟨.insn 5, .listT⟩ ⟨.insn 13, .int32⟩ ⟨.insn 12, .int32⟩ ∧
    getInsn c9S 13 = .binop .mul ⟨.insn 7, .int32⟩ ⟨.insn 3, .int32⟩ ∧
    getInsn c9S 14 = .binop .add ⟨.insn 13, .int32⟩ ⟨.insn 10, .int32⟩ ∧
    c9S.arena.all (fun e => !(usesId e.insn 14)) = true ∧
    getInsn c9S 3 = .builtin "len" [⟨.insn 2, .listT⟩] .int32 ∧
    getInsn c9S 19 = .binop .add ⟨.insn 3, .int32⟩ (intV 1 .int32) ∧
    getInsn c9S 7 = .phi .int32 [(intV 0 .int32, 0), (⟨.insn 19, .int32⟩, 5)] ∧
    c9S.invalid = false ∧ c9S.pyError = none := by
  decide

/-- C10: confirmed.  `visit_AugAssign` reads the name `target`, which is
bound neither among the method's locals nor at module level, so lowering
any augmented assignment raises a host-language `NameError` and the
whole generator state — in particular the instruction arena and the
blocks — is left untouched: no operator application and no write-back is
emitted. -/
theorem c10_augassign_undefined_name (s : GenState) (t : Expr) (op : BinOp) (v : Expr) :
    visit_AugAssign s t op v =
      { s with pyError := some "NameError: name target is not defined" } := by
  have h : (augAssignLocalNames.contains "target"
      || irGeneratorModuleNames.contains "target") = false := by decide
  simp only [visit_AugAssign, h, Bool.false_eq_true, if_false]

/-- Witness for C10 at a concrete state and node. -/
theorem c10_augassign_undefined_name_witness :
    visit_AugAssign emptyS (.name "x" .int32) .add (.num 1 .int32) =
      { emptyS with pyError := some "NameError: name target is not defined" } :=
  c10_augassign_undefined_name emptyS (.name "x" .int32) .add (.num 1 .int32)

/-- C6: confirmed.  For every positional signature `argNames` and every
return constant `m`, lowering `def f(argNames) -> int32: return m`
produces a `Function` whose formal argument list has length
`argNames.length + 1` and starts with the synthetic `outerenv` argument,
whose emitted body holds exactly one `Return` instruction, and the
lowering raises no host error and stays valid. -/
theorem c6_single_return_function (argNames : List (String × Ty)) (m : Int) :
    (getFunc (visit_function (visitExpr 10) (visitStmtList 10) (c6Node argNames m) false
        moduleState).2 1).formalArgs.length = argNames.length + 1 ∧
    (getFunc (visit_function (visitExpr 10) (visitStmtList 10) (c6Node argNames m) false
        moduleState).2 1).formalArgs.headD dummyV = ⟨.argRef "outerenv", .envT⟩ ∧
    funcReturnCount (visit_function (visitExpr 10) (visitStmtList 10) (c6Node argNames m) false
        moduleState).2 1 = 1 ∧
    (visit_function (visitExpr 10) (visitStmtList 10) (c6Node argNames m) false
        moduleState).2.invalid = false ∧
    (visit_function (visitExpr 10) (visitStmtList 10) (c6Node argNames m) false
        moduleState).2.pyError = none := by
  obtain ⟨b1, b2, b3, b4, b5, b6, b7, b8, b9, b10⟩ :=
    bindPositionalArgs_frame ⟨.insn 2, .envT⟩ (argNames.zip (c6ArgValues argNames))
      (c6PreState argNames)
  set mid := bindPositionalArgs ⟨.insn 2, .envT⟩ (argNames.zip (c6ArgValues argNames))
      (c6PreState argNames) with hmid
  have hrt : mid.returnTarget = none := b5.trans rfl
  have hbody := visitStmtList_single_ret mid m hrt
  have hcur : mid.curBlock = 1 := b3.trans rfl
  have hterm0 : blockTerminated mid mid.curBlock = false := by
    rw [hcur]
    exact (b10 1).trans rfl
  have hlen : mid.curBlock < mid.blocks.length := by
    have h2 : mid.blocks.length = 2 := b8.trans rfl
    omega
  obtain ⟨pc, pt⟩ := appendInsn_push mid (.ret (intV m .int32)) hterm0 hlen
  obtain ⟨q1, q2, q3, q4, q5, q6, q7, q8, q9⟩ := appendInsn_fields mid (.ret (intV m .int32))
  have hterm1 : blockTerminated (appendInsn mid (.ret (intV m .int32))).2
      ((appendInsn mid (.ret (intV m .int32))).2).curBlock = true := by
    rw [q3]
    exact pt.trans rfl
  have hfull : (visit_function (visitExpr 10) (visitStmtList 10) (c6Node argNames m) false
      moduleState).2 =
      (appendInsn
        { (appendInsn mid (.ret (intV m .int32))).2 with
            nameStack := ["test"], curFunc := 0, curBlock := 0,
            globalsInScope := [], curEnv := ⟨.insn 0, .envT⟩, curPrivEnv := ⟨.insn 1, .envT⟩ }
        (.closure 1 ⟨.insn 0, .envT⟩)).2 := by
    simp only [visit_function]
    rw [c6_pre argNames m]
    simp only [← hmid, hbody, hterm1, c6Node, Bool.not_true, Bool.false_eq_true, if_false]
    simp
  rw [hfull]
  obtain ⟨r1, r2, r3, r4, r5, r6, r7, r8, r9⟩ :=
    appendInsn_fields
      ({ (appendInsn mid (.ret (intV m .int32))).2 with
          nameStack := ["test"], curFunc := 0, curBlock := 0,
          globalsInScope := [], curEnv := ⟨.insn 0, .envT⟩, curPrivEnv := ⟨.insn 1, .envT⟩ })
      (.closure 1 ⟨.insn 0, .envT⟩)
  obtain ⟨w1, w2⟩ :=
    appendInsn_frame
      ({ (appendInsn mid (.ret (intV m .int32))).2 with
          nameStack := ["test"], curFunc := 0, curBlock := 0,
          globalsInScope := [], curEnv := ⟨.insn 0, .envT⟩, curPrivEnv := ⟨.insn 1, .envT⟩ })
      (.closure 1 ⟨.insn 0, .envT⟩) rfl rfl
  have hfuncs : (appendInsn
      ({ (appendInsn mid (.ret (intV m .int32))).2 with
          nameStack := ["test"], curFunc := 0, curBlock := 0,
          globalsInScope := [], curEnv := ⟨.insn 0, .envT⟩, curPrivEnv := ⟨.insn 1, .envT⟩ })
      (.closure 1 ⟨.insn 0, .envT⟩)).2.funcs = (c6PreState argNames).funcs := by
    rw [r1]
    show ((appendInsn mid (.ret (intV m .int32))).2).funcs = _
    rw [q1, b1]
  have hcount : countReturnsInBlock (appendInsn
      ({ (appendInsn mid (.ret (intV m .int32))).2 with
          nameStack := ["test"], curFunc := 0, curBlock := 0,
          globalsInScope := [], curEnv := ⟨.insn 0, .envT⟩, curPrivEnv := ⟨.insn 1, .envT⟩ })
      (.closure 1 ⟨.insn 0, .envT⟩)).2 1 = 1 := by
    rw [w1 1]
    show countReturnsInBlock ((appendInsn mid (.ret (intV m .int32))).2) 1 = 1
    rw [← hcur, pc, hcur, b9 1]
    rfl
  refine ⟨?_, ?_, ?_, ?_, ?_⟩
  · rw [getFunc, hfuncs]
    simp [c6PreState, c6ArgValues]
  · rw [getFunc, hfuncs]
    simp [c6PreState, c6ArgValues]
  · rw [funcReturnCount, getFunc, hfuncs]
    have hb : ((c6PreState argNames).funcs.getD 1 default).blockIds = [1] := rfl
    rw [hb]
    simp [hcount]
  · rw [r7]
    show ((appendInsn mid (.ret (intV m .int32))).2).invalid = false
    rw [q7, b6]
    rfl
  · rw [r8]
    show ((appendInsn mid (.ret (intV m .int32))).2).pyError = none
    rw [q8, b7]
    rfl

/-- C8: confirmed, universally over the function node (name, positional
signature, return type, body statements, lambda body, globals), the
visitors, the starting state and whatever state `(ctx, s1)` the body
lowering stage produced.  If the declared return type is none and the
body left the final block open, the epilogue terminates it with a
`Return` of the none constant; with a non-none return type it appends
`Unreachable` instead; a lambda's still-open final block is terminated
by returning the body's value directly; a final block the body already
terminated is left untouched.  In every one of these cases the caller's
block gains exactly one instruction: a `Closure` pairing the new
function with the enclosing environment — the caller-scope
`current_env` at entry, which the restore step re-installs before the
closure is emitted — and that closure is the expression's value (the
freshly appended arena id).  Side conditions: no optional arguments, and
the caller's block is a real, still-open block distinct from the
function's final block. -/
theorem c8_epilogue_and_closure_env (visitE : GenState → Expr → Option Value × GenState)
    (visitList : GenState → List Stmt → GenState)
    (fn : String) (ar : List (String × Ty)) (rt : Ty) (bs : List Stmt) (lb : Expr)
    (gl : List String) (isLambda : Bool) (s : GenState) (ctx : FuncCtx) (s1 : GenState)
    (hstage : funcStage1 visitE visitList ⟨fn, ar, [], rt, bs, lb, gl⟩ isLambda s = (ctx, s1))
    (hne : ctx.oldBlock ≠ s1.curBlock)
    (hlen : s1.curBlock < s1.blocks.length)
    (hlenOld : ctx.oldBlock < s1.blocks.length)
    (hopenOld : blockTerminated s1 ctx.oldBlock = false) :
    ctx.oldEnv = s.curEnv ∧
    (getBlock (visit_function visitE visitList ⟨fn, ar, [], rt, bs, lb, gl⟩ isLambda s).2
        ctx.oldBlock).insns =
      (getBlock s1 ctx.oldBlock).insns ++ [.closure ctx.funcId s.curEnv] ∧
    (isLambda = false → rt = Ty.noneT → blockTerminated s1 s1.curBlock = false →
      (getBlock (visit_function visitE visitList ⟨fn, ar, [], rt, bs, lb, gl⟩ isLambda s).2
          s1.curBlock).insns = (getBlock s1 s1.curBlock).insns ++ [.ret noneV]) ∧
    (isLambda = false → rt ≠ Ty.noneT → blockTerminated s1 s1.curBlock = false →
      (getBlock (visit_function visitE visitList ⟨fn, ar, [], rt, bs, lb, gl⟩ isLambda s).2
          s1.curBlock).insns = (getBlock s1 s1.curBlock).insns ++ [.unreachable]) ∧
    (isLambda = true → blockTerminated s1 s1.curBlock = false →
      (getBlock (visit_function visitE visitList ⟨fn, ar, [], rt, bs, lb, gl⟩ isLambda s).2
          s1.curBlock).insns = (getBlock s1 s1.curBlock).insns ++ [.ret ctx.bodyResult]) ∧
    (blockTerminated s1 s1.curBlock = true →
      (getBlock (visit_function visitE visitList ⟨fn, ar, [], rt, bs, lb, gl⟩ isLambda s).2
          s1.curBlock).insns = (getBlock s1 s1.curBlock).insns) ∧
    (visit_function visitE visitList ⟨fn, ar, [], rt, bs, lb, gl⟩ isLambda s).1 =
      some ⟨.insn ((visit_function visitE visitList ⟨fn, ar, [], rt, bs, lb, gl⟩
        isLambda s).2.arena.length - 1), .funcT⟩ := by
  have henv : ctx.oldEnv = s.curEnv := by
    rw [← show (funcStage1 visitE visitList ⟨fn, ar, [], rt, bs, lb, gl⟩ isLambda s).1 = ctx
      from congrArg Prod.fst hstage]
    exact funcStage1_oldEnv visitE visitList fn ar rt bs lb gl isLambda s
  rw [← henv]
  cases isLambda with
  | false =>
    cases hterm : blockTerminated s1 s1.curBlock with
    | false =>
      by_cases hrt : rt = Ty.noneT
      · subst hrt
        have hR : visit_function visitE visitList ⟨fn, ar, [], Ty.noneT, bs, lb, gl⟩ false s =
            (some (appendInsn (restoredState ctx (appendInsn s1 (.ret noneV)).2 false)
                (.closure ctx.funcId ctx.oldEnv)).1,
             (appendInsn (restoredState ctx (appendInsn s1 (.ret noneV)).2 false)
                (.closure ctx.funcId ctx.oldEnv)).2) := by
          simp only [visit_function, hstage, terminate, hterm, restoredState, Bool.not_true,
            Bool.not_false, Bool.false_eq_true, eq_self_iff_true, if_true, if_false, ite_self]
        obtain ⟨c1, c2, c3, c4⟩ := closure_append_shape ctx (appendInsn s1 (.ret noneV)).2 s1
          false hne hlenOld hopenOld
          (fun bid hb => appendInsn_getBlock_other s1 _ bid hb)
          ((appendInsn_fields s1 _).2.2.2.2.2.2.2.2)
        refine ⟨rfl, ?_, ?_, ?_, ?_, ?_, ?_⟩
        · simp only [hR]
          exact c1
        · intro _ _ _
          simp only [hR]
          rw [c2 s1.curBlock (fun hh => hne hh.symm)]
          exact appendInsn_getBlock_self s1 (.ret noneV) hterm hlen
        · intro _ hc _
          exact absurd rfl hc
        · intro h _
          exact nomatch h
        · intro hc
          exact nomatch hc
        · simp only [hR]
          rw [c3, c4]
          simp
      · have hR : visit_function visitE visitList ⟨fn, ar, [], rt, bs, lb, gl⟩ false s =
            (some (appendInsn (restoredState ctx (appendInsn s1 .unreachable).2 false)
                (.closure ctx.funcId ctx.oldEnv)).1,
             (appendInsn (restoredState ctx (appendInsn s1 .unreachable).2 false)
                (.closure ctx.funcId ctx.oldEnv)).2) := by
          simp only [visit_function, hstage, terminate, hterm, restoredState, Bool.not_true,
            Bool.not_false, Bool.false_eq_true, eq_self_iff_true, if_true, if_false, ite_self,
            if_neg hrt]
        obtain ⟨c1, c2, c3, c4⟩ := closure_append_shape ctx (appendInsn s1 .unreachable).2 s1
          false hne hlenOld hopenOld
          (fun bid hb => appendInsn_getBlock_other s1 _ bid hb)
          ((appendInsn_fields s1 _).2.2.2.2.2.2.2.2)
        refine ⟨rfl, ?_, ?_, ?_, ?_, ?_, ?_⟩
        · simp only [hR]
          exact c1
        · intro _ hc _
          exact absurd hc hrt
        · intro _ _ _
          simp only [hR]
          rw [c2 s1.curBlock (fun hh => hne hh.symm)]
          exact appendInsn_getBlock_self s1 .unreachable hterm hlen
        · intro h _
          exact nomatch h
        · intro hc
          exact nomatch hc
        · simp only [hR]
          rw [c3, c4]
          simp
    | true =>
      have hR : visit_function visitE visitList ⟨fn, ar, [], rt, bs, lb, gl⟩ false s =
          (some (appendInsn (restoredState ctx s1 false)
              (.closure ctx.funcId ctx.oldEnv)).1,
           (appendInsn (restoredState ctx s1 false)
              (.closure ctx.funcId ctx.oldEnv)).2) := by
        simp only [visit_function, hstage, terminate, hterm, restoredState, Bool.not_true,
          Bool.not_false, Bool.false_eq_true, eq_self_iff_true, if_true, if_false, ite_self]
      obtain ⟨c1, c2, c3, c4⟩ := closure_append_shape ctx s1 s1
        false hne hlenOld hopenOld (fun _ _ => rfl) rfl
      refine ⟨rfl, ?_, ?_, ?_, ?_, ?_, ?_⟩
      · simp only [hR]
        exact c1
      · intro _ _ hc
        exact nomatch hc
      · intro _ _ hc
        exact nomatch hc
      · intro h _
        exact nomatch h
      · intro _
        simp only [hR]
        rw [c2 s1.curBlock (fun hh => hne hh.symm)]
      · simp only [hR]
        rw [c3, c4]
        simp
  | true =>
    cases hterm : blockTerminated s1 s1.curBlock with
    | false =>
      have hR : visit_function visitE visitList ⟨fn, ar, [], rt, bs, lb, gl⟩ true s =
          (some (appendInsn (restoredState ctx (appendInsn s1 (.ret ctx.bodyResult)).2 true)
              (.closure ctx.funcId ctx.oldEnv)).1,
           (appendInsn (restoredState ctx (appendInsn s1 (.ret ctx.bodyResult)).2 true)
              (.closure ctx.funcId ctx.oldEnv)).2) := by
        simp only [visit_function, hstage, terminate, hterm, restoredState, Bool.not_true,
          Bool.not_false, Bool.false_eq_true, eq_self_iff_true, if_true, if_false, ite_self]
      obtain ⟨c1, c2, c3, c4⟩ := closure_append_shape ctx
        (appendInsn s1 (.ret ctx.bodyResult)).2 s1
        true hne hlenOld hopenOld
        (fun bid hb => appendInsn_getBlock_other s1 _ bid hb)
        ((appendInsn_fields s1 _).2.2.2.2.2.2.2.2)
      refine ⟨rfl, ?_, ?_, ?_, ?_, ?_, ?_⟩
      · simp only [hR]
        exact c1
      · intro h _ _
        exact nomatch h
      · intro h _ _
        exact nomatch h
      · intro _ _
        simp only [hR]
        rw [c2 s1.curBlock (fun hh => hne hh.symm)]
        exact appendInsn_getBlock_self s1 (.ret ctx.bodyResult) hterm hlen
      · intro hc
        exact nomatch hc
      · simp only [hR]
        rw [c3, c4]
        simp
    | true =>
      have hR : visit_function visitE visitList ⟨fn, ar, [], rt, bs, lb, gl⟩ true s =
          (some (appendInsn (restoredState ctx s1 true)
              (.closure ctx.funcId ctx.oldEnv)).1,
           (appendInsn (restoredState ctx s1 true)
              (.closure ctx.funcId ctx.oldEnv)).2) := by
        simp only [visit_function, hstage, terminate, hterm, restoredState, Bool.not_true,
          Bool.not_false, Bool.false_eq_true, eq_self_iff_true, if_true, if_false, ite_self]
      obtain ⟨c1, c2, c3, c4⟩ := closure_append_shape ctx s1 s1
        true hne hlenOld hopenOld (fun _ _ => rfl) rfl
      refine ⟨rfl, ?_, ?_, ?_, ?_, ?_, ?_⟩
      · simp only [hR]
        exact c1
      · intro h _ _
        exact nomatch h
      · intro h _ _
        exact nomatch h
      · intro _ hc
        exact nomatch hc
      · intro _
        simp only [hR]
        rw [c2 s1.curBlock (fun hh => hne hh.symm)]
      · simp only [hR]
        rw [c3, c4]
        simp

/-- Witness for C8: the lambda `lambda: 7` lowered from the module
state, with `funcStage1`'s concrete output `(c8wCtx, c8wS1)`. -/
theorem c8_epilogue_and_closure_env_witness :
    c8wCtx.oldEnv = moduleState.curEnv ∧
    (getBlock (visit_function (visitExpr 10) (visitStmtList 10)
        ⟨"lam", [], [], Ty.int32, [], .num 7 .int32, []⟩ true moduleState).2
        c8wCtx.oldBlock).insns =
      (getBlock c8wS1 c8wCtx.oldBlock).insns ++ [.closure c8wCtx.funcId moduleState.curEnv] ∧
    (true = false → Ty.int32 = Ty.noneT → blockTerminated c8wS1 c8wS1.curBlock = false →
      (getBlock (visit_function (visitExpr 10) (visitStmtList 10)
          ⟨"lam", [], [], Ty.int32, [], .num 7 .int32, []⟩ true moduleState).2
          c8wS1.curBlock).insns = (getBlock c8wS1 c8wS1.curBlock).insns ++ [.ret noneV]) ∧
    (true = false → Ty.int32 ≠ Ty.noneT → blockTerminated c8wS1 c8wS1.curBlock = false →
      (getBlock (visit_function (visitExpr 10) (visitStmtList 10)
          ⟨"lam", [], [], Ty.int32, [], .num 7 .int32, []⟩ true moduleState).2
          c8wS1.curBlock).insns = (getBlock c8wS1 c8wS1.curBlock).insns ++ [.unreachable]) ∧
    (true = true → blockTerminated c8wS1 c8wS1.curBlock = false →
      (getBlock (visit_function (visitExpr 10) (visitStmtList 10)
          ⟨"lam", [], [], Ty.int32, [], .num 7 .int32, []⟩ true moduleState).2
          c8wS1.curBlock).insns =
        (getBlock c8wS1 c8wS1.curBlock).insns ++ [.ret c8wCtx.bodyResult]) ∧
    (blockTerminated c8wS1 c8wS1.curBlock = true →
      (getBlock (visit_function (visitExpr 10) (visitStmtList 10)
          ⟨"lam", [], [], Ty.int32, [], .num 7 .int32, []⟩ true moduleState).2
          c8wS1.curBlock).insns = (getBlock c8wS1 c8wS1.curBlock).insns) ∧
    (visit_function (visitExpr 10) (visitStmtList 10)
        ⟨"lam", [], [], Ty.int32, [], .num 7 .int32, []⟩ true moduleState).1 =
      some ⟨.insn ((visit_function (visitExpr 10) (visitStmtList 10)
        ⟨"lam", [], [], Ty.int32, [], .num 7 .int32, []⟩ true moduleState).2.arena.length - 1),
        .funcT⟩ :=
  c8_epilogue_and_closure_env (visitExpr 10) (visitStmtList 10) "lam" [] Ty.int32 [] (.num 7 .int32) [] true moduleState
    c8wCtx c8wS1 rfl (by decide) (by decide) (by decide) (by decide)

end ArtiqGen
